import Mathlib

/-!
Verification development for the Cendika communication-API gateway.

This file gives a shallow embedding, in Lean 4, of the algorithmic core of
the repository: the SMS unit calculator, phone validation, pricing lookup,
provider routing, bulk dispatch, and the OTP lifecycle engine, each
translated from the TypeScript source.  JavaScript numbers are modelled as
rationals, timestamps as integers (milliseconds), the relational store as
explicit lists of rows, and the injected random / hash collaborators as
function parameters.  Theorems about the specification follow the
definitions.
-/

/-! ## JavaScript-flavoured helpers -/

/-- JS string-or (`a || b`) where the empty string is falsy. -/
def jsStrOr (a b : Option String) : Option String :=
  match a with
  | some s => if s = "" then b else some s
  | none => b

/-- JS truthiness of an optional string (`if (x)`): empty string is falsy. -/
def jsTruthy (o : Option String) : Option String :=
  match o with
  | some s => if s = "" then none else some s
  | none => none

/-- JS `x || d` on an optional number where 0 is falsy. -/
def jsNumOr (o : Option ℚ) (d : ℚ) : ℚ :=
  match o with
  | some q => if q = 0 then d else q
  | none => d

/-- JS `x || undefined` on an optional number where 0 is falsy. -/
def jsNumOrUndef (o : Option ℚ) : Option ℚ :=
  match o with
  | some q => if q = 0 then none else some q
  | none => none

/-- JS `s.split(sep)[0]`: the characters before the first occurrence. -/
def jsSplitHead (s : String) : String :=
  String.mk (s.toList.takeWhile (fun c => c ≠ '_'))

/-- JS `s.charAt(i)`: one-character string, empty when out of range. -/
def jsCharAt (s : String) (i : Nat) : String :=
  match s.toList.get? i with
  | some c => String.singleton c
  | none => ""

/-- JS `Math.ceil(a / b)` for natural numbers, `b > 0`. -/
def jsCeilDiv (a b : Nat) : Nat := (a + b - 1) / b

/-- JS `s.startsWith(pre)` (on the character sequence). -/
def jsStartsWith (s pre : String) : Bool :=
  pre.toList.isPrefixOf s.toList

/-- JS `Math.round` on a rational. -/
def jsRound (q : ℚ) : Int := ⌊q + 1/2⌋

/-- JS `s.toUpperCase()` restricted to basic latin letters, the fragment
exercised by the OTP code alphabets (models the uppercasing performed on
submitted codes). -/
def jsToUpper (s : String) : String :=
  String.mk (s.toList.map Char.toUpper)

/-! ## MessageUnitCalculator (sms-validation.service.ts, calculateMessageUnits) -/

inductive Encoding where
  | GSM7
  | UCS2
deriving DecidableEq, Repr

/-- The characters of the gsm7chars regex class beyond the three
ASCII ranges 0-9, A-Z, a-z. -/
def gsm7Extra : List Char :=
  ['@', '£', '$', '¥', 'è', 'é', 'ù', 'ì', 'ò', 'Ç', '\n', 'Ø', 'ø', '\r',
   'Å', 'å', 'Δ', '_', 'Φ', 'Γ', 'Λ', 'Ω', 'Π', 'Ψ', 'Σ', 'Θ', 'Ξ', 'Æ',
   'æ', 'ß', 'É', ' ', '!', '"', '#', '¤', '%', '&', Char.ofNat 39, '(',
   ')', '*', '+', ',', '-', '.', '/', ':', ';', '<', '=', '>', '?', '¡',
   '¨', 'Ä', 'Ö', 'Ñ', 'Ü', '§', '¿', '¬', 'ä', 'ö', 'ñ', 'ü', 'à']

/-- Membership in the GSM-7 repertoire of the source regex. -/
def isGSM7Char (c : Char) : Bool :=
  (48 ≤ c.toNat && c.toNat ≤ 57) || (65 ≤ c.toNat && c.toNat ≤ 90) ||
  (97 ≤ c.toNat && c.toNat ≤ 122) || gsm7Extra.contains c

structure MessageUnits where
  messageLength : Nat
  units : Nat
  encoding : Encoding
  charactersPerUnit : Nat
deriving DecidableEq, Repr

/-- SMSValidationService.calculateMessageUnits. -/
def calculateMessageUnits (message : String) : MessageUnits :=
  let length := message.length
  let isG := message.toList.all isGSM7Char
  let encoding := if isG then Encoding.GSM7 else Encoding.UCS2
  if length = 0 then
    { messageLength := length, units := 0, encoding,
      charactersPerUnit := if isG then 160 else 70 }
  else if isG then
    if length ≤ 160 then
      { messageLength := length, units := 1, encoding, charactersPerUnit := 160 }
    else
      { messageLength := length, units := jsCeilDiv length 153, encoding,
        charactersPerUnit := 153 }
  else
    if length ≤ 70 then
      { messageLength := length, units := 1, encoding, charactersPerUnit := 70 }
    else
      { messageLength := length, units := jsCeilDiv length 67, encoding,
        charactersPerUnit := 67 }

/-! ## PhoneIntelligence (geo.middleware detectNetwork; sms-validation.service.ts) -/

/-- Digits-only projection, JS `phone.replace(/\D/g, "")`. -/
def digitsOnly (phone : String) : String :=
  String.mk (phone.toList.filter Char.isDigit)

/-- JS `phone.replace(/[^\d+]/g, "")`: keep digits and every plus sign. -/
def jsCleanPhone (phone : String) : String :=
  String.mk (phone.toList.filter (fun c => c.isDigit || c == '+'))

/-- JS `s.substring(a, b)` for `a ≤ b` (clamped to the string length). -/
def jsSubstring (s : String) (a b : Nat) : String :=
  String.mk ((s.toList.drop a).take (b - a))

structure NetworkInfo where
  country : Option String
  network : Option String
  operatorName : Option String
deriving DecidableEq, Repr

/-- geo.middleware detectNetwork: prefix tables for GH, NG, KE, ZA. -/
def detectNetwork (phone : String) : NetworkInfo :=
  let cleaned := digitsOnly phone
  if jsStartsWith cleaned "233" then
    let p := jsSubstring cleaned 3 5
    if ["20", "50", "23", "28"].contains p then
      ⟨some "GH", some "telecel", some "Telecel Ghana"⟩
    else if ["24", "54", "55", "53", "23", "59"].contains p then
      ⟨some "GH", some "mtn", some "MTN Ghana"⟩
    else if ["26", "56", "27", "57"].contains p then
      ⟨some "GH", some "airteltigo", some "AirtelTigo"⟩
    else ⟨none, none, none⟩
  else if jsStartsWith cleaned "234" then
    let p := jsSubstring cleaned 3 6
    if ["803", "806", "810", "813", "816", "903", "906"].contains p then
      ⟨some "NG", some "mtn", some "MTN Nigeria"⟩
    else if ["805", "807", "811", "815", "905"].contains p then
      ⟨some "NG", some "glo", some "Globacom"⟩
    else if ["802", "808", "812", "902", "907", "901"].contains p then
      ⟨some "NG", some "airtel", some "Airtel Nigeria"⟩
    else if ["809", "817", "818", "909"].contains p then
      ⟨some "NG", some "9mobile", some "9mobile"⟩
    else ⟨none, none, none⟩
  else if jsStartsWith cleaned "254" then
    let p := jsSubstring cleaned 3 6
    if ["701", "702", "703", "704", "705", "706", "707", "708", "709"].contains p then
      ⟨some "KE", some "safaricom", some "Safaricom"⟩
    else if ["710", "711", "712", "713", "714", "715"].contains p then
      ⟨some "KE", some "airtel", some "Airtel Kenya"⟩
    else if ["770", "771", "772", "773", "774", "775"].contains p then
      ⟨some "KE", some "telkom", some "Telkom Kenya"⟩
    else ⟨none, none, none⟩
  else if jsStartsWith cleaned "27" then
    let p := jsSubstring cleaned 2 4
    if ["82", "83", "84"].contains p then
      ⟨some "ZA", some "vodacom", some "Vodacom"⟩
    else if ["71", "72", "73", "74", "76", "78"].contains p then
      ⟨some "ZA", some "mtn", some "MTN South Africa"⟩
    else if ["81", "84"].contains p then
      ⟨some "ZA", some "cellc", some "Cell C"⟩
    else ⟨none, none, none⟩
  else ⟨none, none, none⟩

structure SMSValidationResult where
  valid : Bool
  phone : String
  formatted : String
  country : Option String
  countryCode : String
  network : Option String
  operatorName : Option String
  numberType : String
  errors : Option (List String)
deriving DecidableEq, Repr

/-- SMSValidationService.validatePhoneNumber. -/
def validatePhoneNumber (phone : String) : SMSValidationResult :=
  let cleaned := jsCleanPhone phone
  let errs :=
    (if !jsStartsWith cleaned "+" then
       ["Phone number must start with + and country code"] else []) ++
    (if cleaned.length < 10 || cleaned.length > 16 then
       ["Phone number must be between 10 and 15 digits"] else [])
  let networkInfo := detectNetwork cleaned
  { valid := errs.length = 0,
    phone := phone,
    formatted := cleaned,
    country := networkInfo.country,
    countryCode := jsSubstring cleaned 0 (if cleaned.length ≥ 4 then 4 else 3),
    network := networkInfo.network,
    operatorName := networkInfo.operatorName,
    numberType := "mobile",
    errors := if errs.length > 0 then some errs else none }

/-! ## PricingResolver (sms-router.service.ts, getPricing) -/

inductive MessageType where
  | SMS
  | BULK
  | OTP
deriving DecidableEq, Repr

structure PricingRate where
  country : String
  network : Option String
  messageType : MessageType
  serviceType : String
  isActive : Bool
  effectiveFrom : Int
  effectiveTo : Option Int
  ratePerUnit : ℚ
  currency : String
deriving DecidableEq, Repr

structure SMSPricing where
  country : String
  network : Option String
  ratePerUnit : ℚ
  currency : String
  units : ℚ
  totalCost : ℚ
deriving DecidableEq, Repr

/-- Prisma findFirst with a descending orderBy on an integer column: the
first row, in table order, among those with maximal key. -/
def pickMaxBy {α : Type} (key : α → Int) (rows : List α) : Option α :=
  rows.foldl (fun acc r =>
    match acc with
    | none => some r
    | some b => if key b < key r then some r else some b) none

/-- The pricing query ordering: orderBy effectiveFrom desc. -/
def pickLatestEffective (rows : List PricingRate) : Option PricingRate :=
  pickMaxBy PricingRate.effectiveFrom rows

/-- The where-clause of the pricing query: exact country, exact
network-or-null, message type, serviceType SMS, active, and the effective
window contains now. -/
def rateMatches (now : Int) (country : String) (net : Option String)
    (mt : MessageType) (r : PricingRate) : Bool :=
  decide (r.country = country) && decide (r.network = net) &&
  decide (r.messageType = mt) && decide (r.serviceType = "SMS") &&
  r.isActive && decide (r.effectiveFrom ≤ now) &&
  (match r.effectiveTo with
   | none => true
   | some t => decide (now ≤ t))

/-- SMSRouterService.getPricing.  The single query uses the key
(country, network-or-null); on no match the hardcoded 0.035 fallback is
returned. -/
def getPricing (db : List PricingRate) (now : Int) (country : String)
    (network : Option String) (mt : MessageType) (units : ℚ) : SMSPricing :=
  let net := jsTruthy network
  match pickLatestEffective (db.filter (rateMatches now country net mt)) with
  | none =>
    { country, network, ratePerUnit := 7/200, currency := "GHS", units,
      totalCost := 7/200 * units }
  | some p =>
    { country, network := net, ratePerUnit := p.ratePerUnit,
      currency := p.currency, units, totalCost := p.ratePerUnit * units }

/-! ## ProviderRouter (sms-router.service.ts, selectProvider) -/

inductive RoutePriority where
  | cost
  | speed
  | reliability
deriving DecidableEq, Repr

structure Provider where
  id : String
  name : String
  ptype : String
  status : String
  supportedCountries : List String
  supportedNetworks : List String
  priority : ℚ
  successRate : Option ℚ
  avgLatency : Option ℚ
deriving DecidableEq, Repr

structure ProviderSelectionCriteria where
  country : String
  network : Option String
  messageType : MessageType
  priority : Option RoutePriority
deriving DecidableEq, Repr

structure ProviderInfo where
  id : String
  name : String
  ptype : String
  countries : List String
  networks : List String
  priority : ℚ
  successRate : Option ℚ
  avgLatency : Option ℚ
  costPerUnit : ℚ
deriving DecidableEq, Repr

/-- JS `p.successRate || 0`. -/
def srOrZero (p : Provider) : ℚ := jsNumOr p.successRate 0

/-- JS `p.avgLatency || 1000`. -/
def latOrDefault (p : Provider) : ℚ := jsNumOr p.avgLatency 1000

/-- The DB ordering of the provider query, priority desc then successRate
desc: a sorts no later than b. -/
def dbOrder (a b : Provider) : Prop :=
  b.priority < a.priority ∨ (a.priority = b.priority ∧ srOrZero b ≤ srOrZero a)

instance : DecidableRel dbOrder := fun a b => by unfold dbOrder; infer_instance

instance : IsTotal Provider dbOrder := by
  constructor
  intro a b
  rcases lt_trichotomy a.priority b.priority with h | h | h
  · exact Or.inr (Or.inl h)
  · rcases le_total (srOrZero a) (srOrZero b) with hs | hs
    · exact Or.inr (Or.inr ⟨h.symm, hs⟩)
    · exact Or.inl (Or.inr ⟨h, hs⟩)
  · exact Or.inl (Or.inl h)

instance : IsTrans Provider dbOrder := by
  constructor
  intro a b c hab hbc
  rcases hab with h1 | ⟨h1, hs1⟩ <;> rcases hbc with h2 | ⟨h2, hs2⟩
  · exact Or.inl (lt_trans h2 h1)
  · exact Or.inl (h2 ▸ h1)
  · exact Or.inl (h1 ▸ h2)
  · exact Or.inr ⟨h1.trans h2, hs2.trans hs1⟩

/-- The speed re-sort comparator: avgLatency (default 1000) ascending. -/
def speedOrder (a b : Provider) : Prop := latOrDefault a ≤ latOrDefault b

instance : DecidableRel speedOrder := fun a b => by unfold speedOrder; infer_instance

instance : IsTotal Provider speedOrder :=
  ⟨fun a b => le_total (latOrDefault a) (latOrDefault b)⟩

instance : IsTrans Provider speedOrder :=
  ⟨fun _ _ _ h1 h2 => le_trans h1 h2⟩

/-- The reliability re-sort comparator: successRate (default 0) descending. -/
def relOrder (a b : Provider) : Prop := srOrZero b ≤ srOrZero a

instance : DecidableRel relOrder := fun a b => by unfold relOrder; infer_instance

instance : IsTotal Provider relOrder :=
  ⟨fun a b => (le_total (srOrZero b) (srOrZero a)).imp id id⟩

instance : IsTrans Provider relOrder :=
  ⟨fun _ _ _ h1 h2 => le_trans h2 h1⟩

/-- The where-clause of the provider query: SMS type, active status,
destination country supported. -/
def providerQualifies (country : String) (p : Provider) : Bool :=
  decide (p.ptype = "SMS") && decide (p.status = "ACTIVE") &&
  decide (country ∈ p.supportedCountries)

/-- The provider query result: qualifying rows ordered priority desc then
successRate desc. -/
def activeDbSorted (db : List Provider) (country : String) : List Provider :=
  List.insertionSort dbOrder (db.filter (providerQualifies country))

/-- The network refinement with fallback: prefer providers supporting the
requested network, fall back to the country-wide list when none do. -/
def candidatesOf (db : List Provider) (c : ProviderSelectionCriteria) :
    List Provider :=
  match jsTruthy c.network with
  | some n =>
    if ((activeDbSorted db c.country).filter
        (fun p => decide (n ∈ p.supportedNetworks))).isEmpty then
      activeDbSorted db c.country
    else
      (activeDbSorted db c.country).filter
        (fun p => decide (n ∈ p.supportedNetworks))
  | none => activeDbSorted db c.country

/-- SMSRouterService.selectProvider, up to the projection into
ProviderInfo. -/
def selectProviderRec (db : List Provider) (c : ProviderSelectionCriteria) :
    Option Provider :=
  if (activeDbSorted db c.country).isEmpty then none
  else
    match c.priority with
    | some RoutePriority.speed =>
        (List.insertionSort speedOrder (candidatesOf db c)).head?
    | some RoutePriority.reliability =>
        (List.insertionSort relOrder (candidatesOf db c)).head?
    | _ => (candidatesOf db c).head?

/-- The ProviderInfo projection of the selected row (costPerUnit is the
hardcoded 0.035 placeholder). -/
def toProviderInfo (p : Provider) : ProviderInfo :=
  { id := p.id, name := p.name, ptype := p.ptype,
    countries := p.supportedCountries, networks := p.supportedNetworks,
    priority := p.priority, successRate := jsNumOrUndef p.successRate,
    avgLatency := jsNumOrUndef p.avgLatency, costPerUnit := 7/200 }

/-- SMSRouterService.selectProvider. -/
def selectProvider (db : List Provider) (c : ProviderSelectionCriteria) :
    Option ProviderInfo :=
  (selectProviderRec db c).map toProviderInfo

/-! ## SMSDispatchOrchestrator, bulk path (sms.service.ts, sendBulkSMS) -/

inductive MessageStatus where
  | PENDING
  | QUEUED
  | SENT
  | DELIVERED
  | FAILED
  | EXPIRED
deriving DecidableEq, Repr

/-- replace with a global regex: all non-overlapping occurrences, left to
right. -/
def replaceAllAux (pat rep : List Char) : List Char → List Char
  | [] => []
  | c :: rest =>
    if h : pat ≠ [] ∧ pat.isPrefixOf (c :: rest) then
      rep ++ replaceAllAux pat rep ((c :: rest).drop pat.length)
    else
      c :: replaceAllAux pat rep rest
termination_by l => l.length
decreasing_by
  · simp only [List.length_drop, List.length_cons]
    have hp : 1 ≤ pat.length := by
      cases pat with
      | nil => exact absurd rfl h.1
      | cons x xs => simp
    omega
  · simp

/-- JS `s.replace(new RegExp(pat, "g"), rep)` for a literal pattern. -/
def jsReplaceAll (s pat rep : String) : String :=
  String.mk (replaceAllAux pat.toList rep.toList s.toList)

/-- SMSValidationService.replaceVariables: substitute both double-brace and
single-brace template variables. -/
def replaceVariables (message : String) (vars : List (String × String)) :
    String :=
  vars.foldl (fun result kv =>
    jsReplaceAll (jsReplaceAll result ("\x7b\x7b" ++ kv.1 ++ "\x7d\x7d") kv.2)
      ("\x7b" ++ kv.1 ++ "\x7d") kv.2) message

/-- The country calling-code table of getCountryFromPhone, in source
order. -/
def countryCodeMap : List (String × String) :=
  [("233", "GH"), ("234", "NG"), ("254", "KE"), ("27", "ZA"), ("256", "UG"),
   ("255", "TZ"), ("250", "RW"), ("225", "CI"), ("221", "SN"), ("237", "CM"),
   ("20", "EG"), ("212", "MA"), ("213", "DZ"), ("251", "ET")]

/-- SMSRouterService.getCountryFromPhone: first table match, defaulting to
GH. -/
def getCountryFromPhone (phone : String) : String :=
  let cleaned := digitsOnly phone
  match countryCodeMap.find? (fun kv => jsStartsWith cleaned kv.1) with
  | some kv => kv.2
  | none => "GH"

/-- SMSRouterService.detectNetworkFromPhone (the router-local tables, which
differ from geo.middleware detectNetwork). -/
def detectNetworkFromPhone (phone : String) : Option (String × String) :=
  let cleaned := digitsOnly phone
  if jsStartsWith cleaned "233" then
    let p := jsSubstring cleaned 3 5
    if ["20", "50", "23", "28"].contains p then some ("vodafone", "Vodafone Ghana")
    else if ["24", "54", "55", "59"].contains p then some ("mtn", "MTN Ghana")
    else if ["26", "56", "27", "57"].contains p then some ("airteltigo", "AirtelTigo")
    else none
  else if jsStartsWith cleaned "234" then
    let p := jsSubstring cleaned 3 6
    if ["803", "806", "810", "813", "816", "903", "906"].contains p then
      some ("mtn", "MTN Nigeria")
    else if ["805", "807", "811", "815", "905"].contains p then
      some ("glo", "Globacom")
    else if ["802", "808", "812", "902", "907", "901"].contains p then
      some ("airtel", "Airtel Nigeria")
    else none
  else if jsStartsWith cleaned "254" then
    let p := jsSubstring cleaned 3 6
    if ["701", "702", "703", "704", "705", "706", "707", "708", "709"].contains p then
      some ("safaricom", "Safaricom")
    else if ["710", "711", "712", "713", "714", "715"].contains p then
      some ("airtel", "Airtel Kenya")
    else none
  else none

structure RouteResult where
  provider : Option ProviderInfo
  pricing : SMSPricing
  country : String
  network : Option String
deriving DecidableEq, Repr

/-- SMSRouterService.routeMessage. -/
def routeMessage (providers : List Provider) (rates : List PricingRate)
    (now : Int) (dest : String) (mt : MessageType)
    (priority : Option RoutePriority) : RouteResult :=
  let country := getCountryFromPhone dest
  let networkInfo := detectNetworkFromPhone dest
  let provider := selectProvider providers
    { country, network := networkInfo.map Prod.fst, messageType := mt, priority }
  let pricing := getPricing rates now country (networkInfo.map Prod.fst) mt 1
  { provider, pricing, country, network := networkInfo.map Prod.fst }

structure BulkRecipient where
  toNumber : String
  message : Option String
  vars : Option (List (String × String))
deriving DecidableEq, Repr

structure BulkSMSRequest where
  recipients : List BulkRecipient
  message : Option String
  senderId : Option String
  scheduledFor : Option Int
deriving DecidableEq, Repr

structure SenderInfo where
  id : String
  name : String
deriving DecidableEq, Repr

structure MessageRow where
  id : Nat
  accountId : String
  recipient : String
  recipientCountry : String
  recipientNetwork : Option String
  content : String
  messageType : MessageType
  senderId : String
  senderName : String
  status : MessageStatus
  provider : String
  units : Nat
  unitCost : ℚ
  totalCost : ℚ
  currency : String
  batchId : Option String
  scheduledFor : Option Int
deriving DecidableEq, Repr

inductive ItemStatus where
  | accepted
  | rejected
deriving DecidableEq, Repr

structure BulkItemResult where
  id : Option Nat
  toNumber : String
  status : ItemStatus
  err : Option String
deriving DecidableEq, Repr

/-- The per-recipient pipeline of sendBulkSMS: message presence, variable
substitution, phone validation, routing, pricing, message creation.  DB row
ids are modelled by a counter. -/
def processRecipient (providers : List Provider) (rates : List PricingRate)
    (now : Int) (acct : String) (sender : SenderInfo) (batchId : String)
    (reqMessage : Option String) (scheduledFor : Option Int) (nextId : Nat)
    (r : BulkRecipient) : BulkItemResult × Option MessageRow :=
  match jsStrOr r.message reqMessage with
  | none => (⟨none, r.toNumber, ItemStatus.rejected, some "No message provided"⟩, none)
  | some m =>
    if m = "" then
      (⟨none, r.toNumber, ItemStatus.rejected, some "No message provided"⟩, none)
    else
      let finalMessage :=
        match r.vars with
        | some vs => replaceVariables m vs
        | none => m
      let validation := validatePhoneNumber r.toNumber
      if !validation.valid then
        (⟨none, r.toNumber, ItemStatus.rejected,
          some (String.intercalate ", " (validation.errors.getD []))⟩, none)
      else
        let mu := calculateMessageUnits finalMessage
        let routing := routeMessage providers rates now validation.formatted
          MessageType.BULK none
        match routing.provider with
        | none => (⟨none, r.toNumber, ItemStatus.rejected, some "No provider available"⟩, none)
        | some prov =>
          let pricing := getPricing rates now routing.country routing.network
            MessageType.BULK (mu.units : ℚ)
          let msg : MessageRow :=
            { id := nextId, accountId := acct, recipient := validation.formatted,
              recipientCountry := routing.country,
              recipientNetwork := routing.network, content := finalMessage,
              messageType := MessageType.BULK, senderId := sender.id,
              senderName := sender.name, status := MessageStatus.QUEUED,
              provider := prov.name, units := mu.units,
              unitCost := pricing.ratePerUnit, totalCost := pricing.totalCost,
              currency := pricing.currency, batchId := some batchId,
              scheduledFor }
          (⟨some nextId, validation.formatted, ItemStatus.accepted, none⟩, some msg)

/-- The sequential recipient loop of sendBulkSMS. -/
def processAllRecipients (providers : List Provider) (rates : List PricingRate)
    (now : Int) (acct : String) (sender : SenderInfo) (batchId : String)
    (reqMessage : Option String) (scheduledFor : Option Int) :
    List BulkRecipient → Nat → List BulkItemResult × List MessageRow
  | [], _ => ([], [])
  | r :: rs, nid =>
    match processRecipient providers rates now acct sender batchId reqMessage
        scheduledFor nid r with
    | (item, some msg) =>
      let rest := processAllRecipients providers rates now acct sender batchId
        reqMessage scheduledFor rs (nid + 1)
      (item :: rest.1, msg :: rest.2)
    | (item, none) =>
      let rest := processAllRecipients providers rates now acct sender batchId
        reqMessage scheduledFor rs nid
      (item :: rest.1, rest.2)

structure BulkSMSResponse where
  batchId : String
  totalRecipients : Nat
  accepted : Nat
  rejected : Nat
  estimatedCost : ℚ
  currency : String
  messages : List BulkItemResult
deriving DecidableEq, Repr

/-- SMSService.sendBulkSMS, after a successful sender-identity resolution.
The generated nanoid batch id and the DB id counter are parameters; the
created message rows are returned alongside the response. -/
def sendBulkSMS (providers : List Provider) (rates : List PricingRate)
    (now : Int) (acct : String) (sender : SenderInfo) (batchId : String)
    (nextId0 : Nat) (request : BulkSMSRequest) :
    BulkSMSResponse × List MessageRow :=
  let pr := processAllRecipients providers rates now acct sender batchId
    request.message request.scheduledFor request.recipients nextId0
  let accepted := (pr.1.filter (fun r => decide (r.status = ItemStatus.accepted))).length
  let rejected := (pr.1.filter (fun r => decide (r.status = ItemStatus.rejected))).length
  ({ batchId, totalRecipients := request.recipients.length, accepted, rejected,
     estimatedCost := (pr.2.map MessageRow.totalCost).sum, currency := "GHS",
     messages := pr.1 }, pr.2)

/-- The claim-side characterisation of a failing bulk recipient: no usable
message, invalid phone, or no available provider. -/
def recipientFails (providers : List Provider) (rates : List PricingRate)
    (now : Int) (reqMessage : Option String) (r : BulkRecipient) : Bool :=
  decide ((jsStrOr r.message reqMessage).getD "" = "") ||
  !(validatePhoneNumber r.toNumber).valid ||
  (routeMessage providers rates now (validatePhoneNumber r.toNumber).formatted
    MessageType.BULK none).provider.isNone

/-! ## OTPLifecycleEngine (otp.service.ts, verification.service.ts,
verification-storage.service.ts) -/

inductive PinType where
  | NUMERIC
  | ALPHANUMERIC
  | ALPHABETIC
deriving DecidableEq, Repr

inductive OTPStatus where
  | PENDING
  | VERIFIED
  | FAILED
  | EXPIRED
deriving DecidableEq, Repr

/-- The character alphabet of each pin type. -/
def alphabetOf : PinType → String
  | PinType.NUMERIC => "0123456789"
  | PinType.ALPHANUMERIC => "0123456789ABCDEFGHIJKLMNOPQRSTUVWXYZ"
  | PinType.ALPHABETIC => "ABCDEFGHIJKLMNOPQRSTUVWXYZ"

/-- OTPService.generateCode.  The random source is modelled by the stream
of values of Math.floor(Math.random() * characters.length): randFloor i is
the index drawn at position i (always < characters.length since
Math.random() < 1). -/
def generateCode (randFloor : Nat → Nat) (length : Nat) (ptype : PinType) :
    String :=
  let characters := alphabetOf ptype
  ((List.range length).map (fun i => jsCharAt characters (randFloor i))).foldl
    (· ++ ·) ""

/-- The country table of OTPService.normalizePhoneNumber: calling code and
expected local-format length, in source order. -/
def africanCountries : List (String × Nat) :=
  [("233", 10), ("234", 11), ("254", 10), ("27", 10), ("256", 10),
   ("255", 10), ("250", 10), ("225", 10), ("221", 9), ("237", 9),
   ("20", 11), ("212", 10), ("213", 10), ("251", 10)]

/-- OTPService.normalizePhoneNumber. -/
def normalizePhoneNumber (phone : String) : String :=
  let cleaned := jsCleanPhone phone
  if jsStartsWith cleaned "+" then cleaned
  else
    match (if jsStartsWith cleaned "0" then
             africanCountries.find? (fun c => cleaned.length = c.2)
           else none) with
    | some c => "+" ++ c.1 ++ String.mk (cleaned.toList.drop 1)
    | none =>
      match africanCountries.find? (fun c => jsStartsWith cleaned c.1) with
      | some _ => "+" ++ cleaned
      | none =>
        if 9 ≤ cleaned.length && !(jsStartsWith cleaned "+") then "+" ++ cleaned
        else cleaned

/-- A row of the otp_messages table, as created by
VerificationStorageService.storeOTP (the table has no pin-type column). -/
structure OtpMessage where
  id : Nat
  accountId : String
  recipient : String
  codeHash : String
  codeLength : Nat
  status : OTPStatus
  expiresAt : Int
  maxAttempts : Nat
  attempts : Nat
  senderId : String
  senderName : String
  createdAt : Int
  verifiedAt : Option Int
deriving DecidableEq, Repr

/-- The otp_messages table plus the id sequence. -/
structure OtpStore where
  rows : List OtpMessage
  nextId : Nat
deriving DecidableEq, Repr

/-- The OTP queries ordering: orderBy createdAt desc. -/
def pickLatestCreated (rows : List OtpMessage) : Option OtpMessage :=
  pickMaxBy OtpMessage.createdAt rows

/-- Rows of one (account, phone) pair. -/
def pairRows (st : OtpStore) (acct phone : String) : List OtpMessage :=
  st.rows.filter (fun r => decide (r.accountId = acct ∧ r.recipient = phone))

/-- A PENDING row of one (account, phone) pair. -/
def pairPending (acct phone : String) (r : OtpMessage) : Bool :=
  decide (r.accountId = acct ∧ r.recipient = phone ∧ r.status = OTPStatus.PENDING)

/-- Number of PENDING rows for one (account, phone) pair. -/
def pendingCount (st : OtpStore) (acct phone : String) : Nat :=
  st.rows.countP (pairPending acct phone)

/-- The single-active-OTP invariant of the spec: at most one PENDING row
per (account, phone) pair. -/
def OtpInv (st : OtpStore) : Prop :=
  ∀ acct phone, pendingCount st acct phone ≤ 1

/-- Prisma update by id (the id is the primary key). -/
def updateById (st : OtpStore) (id : Nat) (f : OtpMessage → OtpMessage) :
    OtpStore :=
  { st with rows := st.rows.map (fun r => if r.id = id then f r else r) }

/-- Row lookup by primary key. -/
def findById (st : OtpStore) (id : Nat) : Option OtpMessage :=
  st.rows.find? (fun r => decide (r.id = id))

/-- VerificationStorageService.getActiveOTP: latest PENDING, unexpired row
for the pair. -/
def getActiveOTP (st : OtpStore) (now : Int) (acct phone : String) :
    Option OtpMessage :=
  pickLatestCreated (st.rows.filter (fun r =>
    decide (r.accountId = acct ∧ r.recipient = phone ∧
      r.status = OTPStatus.PENDING ∧ now < r.expiresAt)))

/-- VerificationStorageService.incrementAttempts: bump the counter and
return the updated value (prisma update returns the updated row). -/
def incrementAttempts (st : OtpStore) (id : Nat) : OtpStore × Nat :=
  let st' := updateById st id (fun r => { r with attempts := r.attempts + 1 })
  (st', ((findById st' id).map OtpMessage.attempts).getD 0)

/-- VerificationStorageService.markAsVerified. -/
def markAsVerified (st : OtpStore) (now : Int) (id : Nat) : OtpStore :=
  updateById st id (fun r =>
    { r with status := OTPStatus.VERIFIED, verifiedAt := some now })

/-- VerificationStorageService.markAsFailed. -/
def markAsFailed (st : OtpStore) (id : Nat) : OtpStore :=
  updateById st id (fun r => { r with status := OTPStatus.FAILED })

/-- VerificationStorageService.markAsExpired. -/
def markAsExpired (st : OtpStore) (id : Nat) : OtpStore :=
  updateById st id (fun r => { r with status := OTPStatus.EXPIRED })

/-- VerificationStorageService.invalidatePendingOTPs: every PENDING row of
the pair becomes EXPIRED. -/
def invalidatePendingOTPs (st : OtpStore) (acct phone : String) : OtpStore :=
  { st with rows := st.rows.map (fun r =>
      if pairPending acct phone r then { r with status := OTPStatus.EXPIRED }
      else r) }

/-- VerificationStorageService.checkRateLimit: cooldown since the latest
row of the pair. -/
def checkRateLimit (st : OtpStore) (now : Int) (acct phone : String)
    (cooldownSeconds : Int) : Bool :=
  match pickLatestCreated (pairRows st acct phone) with
  | none => true
  | some last => decide (cooldownSeconds * 1000 ≤ now - last.createdAt)

/-- VerificationStorageService.storeOTP: insert a fresh row; the stored
accountId is the composite id split at the first underscore, the pin type
is dropped (no column), attempts start at 0, createdAt is the DB clock. -/
def storeOTP (st : OtpStore) (now : Int) (dataId phone codeHash : String)
    (pinLength : Nat) (status : OTPStatus) (expiresAt : Int)
    (maxAttempts : Nat) (senderId : String) : OtpStore × Nat :=
  ({ rows := st.rows ++
      [{ id := st.nextId, accountId := jsSplitHead dataId, recipient := phone,
         codeHash, codeLength := pinLength, status, expiresAt, maxAttempts,
         attempts := 0, senderId, senderName := senderId, createdAt := now,
         verifiedAt := none }],
     nextId := st.nextId + 1 }, st.nextId)

structure VerifyOutcome where
  success : Bool
  phone : String
  verified : Bool
  attemptsLeft : Option Int
  message : String
deriving DecidableEq, Repr

/-- VerificationService.verifyOTP.  The bcrypt comparison is the abstract
parameter vh (Bun.password.verify); the submitted code is uppercased before
the comparison.  Returns the response and the updated store. -/
def verifyOTP (vh : String → String → Bool) (now : Int) (st : OtpStore)
    (acct reqPhone code : String) : VerifyOutcome × OtpStore :=
  let phone := normalizePhoneNumber reqPhone
  match getActiveOTP st now acct phone with
  | none =>
    ({ success := false, phone, verified := false, attemptsLeft := none,
       message := "No active OTP found. Please request a new one." }, st)
  | some otp =>
    if otp.expiresAt < now then
      ({ success := false, phone, verified := false, attemptsLeft := none,
         message := "OTP has expired. Please request a new one." },
       markAsExpired st otp.id)
    else if otp.maxAttempts ≤ otp.attempts then
      ({ success := false, phone, verified := false, attemptsLeft := none,
         message := "Maximum verification attempts reached. Please request a new OTP." },
       markAsFailed st otp.id)
    else if vh (jsToUpper code) otp.codeHash then
      ({ success := true, phone, verified := true, attemptsLeft := none,
         message := "OTP verified successfully" }, markAsVerified st now otp.id)
    else
      let inc := incrementAttempts st otp.id
      let attemptsLeft : Int := (otp.maxAttempts : Int) - (inc.2 : Int)
      if attemptsLeft ≤ 0 then
        ({ success := false, phone, verified := false, attemptsLeft := none,
           message := "Invalid code. Maximum attempts reached. Please request a new OTP." },
         markAsFailed inc.1 otp.id)
      else
        ({ success := false, phone, verified := false,
           attemptsLeft := some attemptsLeft,
           message := "Invalid code. " ++ toString attemptsLeft ++ " attempt" ++
             (if attemptsLeft ≠ 1 then "s" else "") ++ " remaining." }, inc.1)

structure OTPRequestResult where
  otpId : Nat
  phone : String
deriving DecidableEq, Repr

/-- VerificationService.requestOTP, with the SMS delivery outcome as the
parameter smsOk and the resolved sender identity as a parameter.  Returns
either the response or the thrown error message, with the updated store. -/
def requestOTP (randFloor : Nat → Nat) (hashFn : String → String) (now : Int)
    (st : OtpStore) (acct reqPhone : String) (pinLength : Option Nat)
    (pinType : Option PinType) (maxAttempts : Option Nat)
    (expiryMs : Option Int) (sender : SenderInfo) (smsOk : Bool) :
    Except String OTPRequestResult × OtpStore :=
  let phone := normalizePhoneNumber reqPhone
  if !checkRateLimit st now acct phone 30 then
    (Except.error "Please wait before requesting another OTP", st)
  else
    let st1 := invalidatePendingOTPs st acct phone
    let code := generateCode randFloor (pinLength.getD 6) (pinType.getD PinType.NUMERIC)
    let codeHash := hashFn code
    let expiresAt := now + expiryMs.getD 600000
    let stored := storeOTP st1 now (acct ++ "_" ++ phone) phone codeHash
      (pinLength.getD 6) OTPStatus.PENDING expiresAt (maxAttempts.getD 3)
      sender.id
    if smsOk then
      (Except.ok { otpId := stored.2, phone }, stored.1)
    else
      (Except.error "Failed to send OTP. Please try again.",
       markAsFailed stored.1 stored.2)

/-- VerificationService.resendOTP: reuses the last row's codeLength and
maxAttempts but always generates a NUMERIC code (the pin type is neither
persisted nor consulted). -/
def resendOTP (randFloor : Nat → Nat) (hashFn : String → String) (now : Int)
    (st : OtpStore) (acct reqPhone : String) (sender : SenderInfo)
    (smsOk : Bool) : Except String OTPRequestResult × OtpStore :=
  let phone := normalizePhoneNumber reqPhone
  if !checkRateLimit st now acct phone 30 then
    (Except.error "Please wait before resending OTP", st)
  else
    match pickLatestCreated (pairRows st acct phone) with
    | none => (Except.error "No previous OTP found. Please request a new one.", st)
    | some lastOTP =>
      let st1 := invalidatePendingOTPs st acct phone
      let code := generateCode randFloor lastOTP.codeLength PinType.NUMERIC
      let codeHash := hashFn code
      let expiryMinutes := jsRound
        (((lastOTP.expiresAt - lastOTP.createdAt : Int) : ℚ) / 60000)
      let expiresAt := now + expiryMinutes * 60 * 1000
      let stored := storeOTP st1 now (acct ++ "_" ++ phone) phone codeHash
        lastOTP.codeLength OTPStatus.PENDING expiresAt lastOTP.maxAttempts
        sender.id
      if smsOk then
        (Except.ok { otpId := stored.2, phone }, stored.1)
      else
        (Except.error "Failed to resend OTP. Please try again.",
         markAsFailed stored.1 stored.2)

/-! ## General lemmas -/

/-- pickMaxBy of a nonempty list, started from a seed: the result exists,
comes from the seed or the list, and dominates both. -/
theorem pickMaxBy_go {α : Type} (key : α → Int) (rows : List α) (b : α) :
    ∃ p, rows.foldl (fun acc r =>
        match acc with
        | none => some r
        | some c => if key c < key r then some r else some c) (some b) = some p ∧
      (p = b ∨ p ∈ rows) ∧ key b ≤ key p ∧ ∀ q ∈ rows, key q ≤ key p := by
  induction rows generalizing b with
  | nil => exact ⟨b, rfl, Or.inl rfl, le_refl _, by simp⟩
  | cons a t ih =>
    by_cases hab : key b < key a
    · obtain ⟨p, hfold, hmem, hle, hall⟩ := ih a
      refine ⟨p, ?_, ?_, ?_, ?_⟩
      · simpa [hab] using hfold
      · rcases hmem with rfl | hp
        · exact Or.inr (List.mem_cons_self _ _)
        · exact Or.inr (List.mem_cons_of_mem _ hp)
      · exact le_of_lt (lt_of_lt_of_le hab hle)
      · intro q hq
        rcases List.mem_cons.mp hq with rfl | hqt
        · exact hle
        · exact hall q hqt
    · obtain ⟨p, hfold, hmem, hle, hall⟩ := ih b
      refine ⟨p, ?_, ?_, hle, ?_⟩
      · simpa [hab] using hfold
      · rcases hmem with rfl | hp
        · exact Or.inl rfl
        · exact Or.inr (List.mem_cons_of_mem _ hp)
      · intro q hq
        rcases List.mem_cons.mp hq with rfl | hqt
        · exact le_trans (le_of_not_lt hab) hle
        · exact hall q hqt

/-- pickMaxBy on a nonempty list returns a member dominating the list. -/
theorem pickMaxBy_spec {α : Type} (key : α → Int) (rows : List α)
    (p : α) (h : pickMaxBy key rows = some p) :
    p ∈ rows ∧ ∀ q ∈ rows, key q ≤ key p := by
  cases rows with
  | nil => simp [pickMaxBy] at h
  | cons a t =>
    obtain ⟨p', hfold, hmem, hle, hall⟩ := pickMaxBy_go key t a
    rw [pickMaxBy, List.foldl_cons] at h
    rw [hfold] at h
    cases h
    refine ⟨?_, ?_⟩
    · rcases hmem with rfl | hp
      · exact List.mem_cons_self _ _
      · exact List.mem_cons_of_mem _ hp
    · intro q hq
      rcases List.mem_cons.mp hq with rfl | hqt
      · exact hle
      · exact hall q hqt

/-- pickMaxBy is none exactly on the empty list. -/
theorem pickMaxBy_eq_none {α : Type} (key : α → Int) (rows : List α) :
    pickMaxBy key rows = none ↔ rows = [] := by
  cases rows with
  | nil => simp [pickMaxBy]
  | cons a t =>
    obtain ⟨p, hfold, _, _, _⟩ := pickMaxBy_go key t a
    rw [pickMaxBy, List.foldl_cons]
    simp [hfold]

/-- Mapping a row-wise update that never turns a non-counted row into a
counted one cannot increase a countP. -/
theorem countP_map_le {α : Type} (p : α → Bool) (f : α → α) (l : List α)
    (h : ∀ x ∈ l, p (f x) = true → p x = true) :
    (l.map f).countP p ≤ l.countP p := by
  induction l with
  | nil => simp
  | cons a t ih =>
    have ht := ih (fun x hx => h x (List.mem_cons_of_mem a hx))
    simp only [List.countP_map] at ht
    simp only [List.map_cons, List.countP_cons]
    cases hfa : p (f a) with
    | true =>
      have hpa := h a (List.mem_cons_self a t) hfa
      simp [hfa, hpa]
      omega
    | false =>
      cases hpa : p a <;> simp [hfa, hpa] <;> omega

/-- If moreover some counted element of the list loses its flag under the
update, the countP strictly decreases. -/
theorem countP_map_succ_le {α : Type} (p : α → Bool) (f : α → α) (l : List α)
    (r : α) (hr : r ∈ l) (hp : p r = true) (hf : p (f r) = false)
    (h : ∀ x ∈ l, p (f x) = true → p x = true) :
    (l.map f).countP p + 1 ≤ l.countP p := by
  induction l with
  | nil => cases hr
  | cons a t ih =>
    simp only [List.map_cons, List.countP_cons]
    rcases List.mem_cons.mp hr with rfl | hrt
    · have ht := countP_map_le p f t (fun x hx => h x (List.mem_cons_of_mem r hx))
      simp only [List.countP_map] at ht
      simp [hf, hp]
      omega
    · have ht := ih hrt (fun x hx => h x (List.mem_cons_of_mem a hx))
      simp only [List.countP_map] at ht
      cases hfa : p (f a) with
      | true =>
        have hpa := h a (List.mem_cons_self a t) hfa
        simp [hfa, hpa]
        omega
      | false =>
        cases hpa : p a <;> simp [hfa, hpa] <;> omega

/-! ## C1: message unit calculation -/

/-- C1: calculateMessageUnits classifies a message as GSM-7 with single and
concatenated thresholds 160 and 153 when every character is in the GSM-7
repertoire, and as UCS-2 with thresholds 70 and 67 otherwise; the unit
count is 0 for empty text, 1 up to the single-unit threshold, and
otherwise the least k with length at most k times the concatenated
threshold, which is the ceiling of length over that threshold. -/
theorem calculateMessageUnits_correct (msg : String) :
    ((calculateMessageUnits msg).messageLength = msg.length) ∧
    ((calculateMessageUnits msg).encoding =
      (if msg.toList.all isGSM7Char then Encoding.GSM7 else Encoding.UCS2)) ∧
    (msg.length = 0 → (calculateMessageUnits msg).units = 0) ∧
    (msg.toList.all isGSM7Char = true →
      (0 < msg.length → msg.length ≤ 160 →
        (calculateMessageUnits msg).units = 1 ∧
        (calculateMessageUnits msg).charactersPerUnit = 160) ∧
      (160 < msg.length →
        (calculateMessageUnits msg).charactersPerUnit = 153 ∧
        msg.length ≤ (calculateMessageUnits msg).units * 153 ∧
        153 * ((calculateMessageUnits msg).units - 1) < msg.length)) ∧
    (msg.toList.all isGSM7Char = false →
      (0 < msg.length → msg.length ≤ 70 →
        (calculateMessageUnits msg).units = 1 ∧
        (calculateMessageUnits msg).charactersPerUnit = 70) ∧
      (70 < msg.length →
        (calculateMessageUnits msg).charactersPerUnit = 67 ∧
        msg.length ≤ (calculateMessageUnits msg).units * 67 ∧
        67 * ((calculateMessageUnits msg).units - 1) < msg.length)) := by
  cases hg : msg.toList.all isGSM7Char with
  | true =>
    simp only [calculateMessageUnits, hg, if_true, Bool.true_eq_false,
      false_implies, and_true, true_implies]
    split_ifs with h0 h1 <;>
      simp_all [jsCeilDiv] <;> omega
  | false =>
    simp only [calculateMessageUnits, hg, if_false, Bool.false_eq_true,
      false_implies, and_true, true_implies]
    split_ifs with h0 h1 <;>
      simp_all [jsCeilDiv] <;> omega

/-- C1 witness: a five-character GSM-7 text is a single 160-character
unit. -/
theorem calculateMessageUnits_correct_witness :
    (calculateMessageUnits "hello").units = 1 ∧
    (calculateMessageUnits "hello").charactersPerUnit = 160 :=
  ((calculateMessageUnits_correct "hello").2.2.2.1 (by decide)).1
    (by decide) (by decide)

/-! ## C7: phone validation -/

/-- C7 counterexample: the input +1234+56789 cleans to itself, is reported
valid, yet its normalized form is not a plus followed only by digits (the
interior plus survives the cleaning). -/
theorem validatePhoneNumber_counterexample :
    (validatePhoneNumber "+1234+56789").valid = true ∧
    (((validatePhoneNumber "+1234+56789").formatted.toList.drop 1).all
      Char.isDigit) = false := by decide

/-- C7 (amended): validatePhoneNumber strips every character except digits
and plus signs (all of them, not only a leading one); it reports valid
exactly when the cleaned form starts with a plus and its length is between
10 and 16; the normalized form always consists of digits and plus signs
and, when valid, starts with a plus.  The function is total. -/
theorem validatePhoneNumber_correct (phone : String) :
    ((validatePhoneNumber phone).formatted = jsCleanPhone phone) ∧
    ((validatePhoneNumber phone).valid = true ↔
      (jsStartsWith (jsCleanPhone phone) "+" = true ∧
        10 ≤ (jsCleanPhone phone).length ∧ (jsCleanPhone phone).length ≤ 16)) ∧
    ((validatePhoneNumber phone).formatted.toList.all
        (fun c => c.isDigit || c == '+') = true) ∧
    ((validatePhoneNumber phone).valid = true →
      jsStartsWith (validatePhoneNumber phone).formatted "+" = true) := by
  refine ⟨rfl, ?_, ?_, ?_⟩
  · by_cases hs : jsStartsWith (jsCleanPhone phone) "+" = true <;>
      by_cases hl : (jsCleanPhone phone).length < 10 ∨ 16 < (jsCleanPhone phone).length <;>
      simp [validatePhoneNumber, hs, hl] <;> omega
  · show (jsCleanPhone phone).toList.all _ = true
    refine List.all_eq_true.mpr fun c hc => ?_
    have hmem : c ∈ (phone.toList.filter (fun c => c.isDigit || c == '+')) := hc
    exact (List.mem_filter.mp hmem).2
  · intro hv
    by_cases hs : jsStartsWith (jsCleanPhone phone) "+" = true
    · exact hs
    · simp [validatePhoneNumber, hs] at hv
  
/-- C7 witness: a well-formed Ghanaian number is valid and normalized with
a leading plus. -/
theorem validatePhoneNumber_correct_witness :
    jsStartsWith (validatePhoneNumber "+233244123456").formatted "+" = true :=
  (validatePhoneNumber_correct "+233244123456").2.2.2 (by decide)

/-! ## C2: pricing lookup -/

/-- C2 counterexample: with only a currently-effective country-wide
(GH, null) rate of 0.05 in the table, a network-specific lookup returns
the hardcoded 0.035 fallback rather than that country-wide default, so the
claimed three-step lookup order does not hold. -/
theorem getPricing_counterexample :
    (getPricing
      [{ country := "GH", network := none, messageType := MessageType.SMS,
         serviceType := "SMS", isActive := true, effectiveFrom := 0,
         effectiveTo := none, ratePerUnit := 1/20, currency := "GHS" }]
      10 "GH" (some "mtn") MessageType.SMS 2).ratePerUnit = 7/200 ∧
    rateMatches 10 "GH" none MessageType.SMS
      { country := "GH", network := none, messageType := MessageType.SMS,
        serviceType := "SMS", isActive := true, effectiveFrom := 0,
        effectiveTo := none, ratePerUnit := 1/20, currency := "GHS" } = true ∧
    (7/200 : ℚ) ≠ 1/20 := by
  refine ⟨?_, by simp [rateMatches], by norm_num⟩
  simp [getPricing, jsTruthy, rateMatches, pickLatestEffective, pickMaxBy]

/-- C2 (amended): getPricing performs one query keyed on
(country, network-or-null); when no currently-effective rate matches that
key it returns the hardcoded 0.035 fallback (never consulting the
country-wide default for a network-specific miss), when one matches it
returns the matching active rate with the latest effectiveFrom, and in
every case totalCost equals ratePerUnit times units and the function is
total. -/
theorem getPricing_correct (db : List PricingRate) (now : Int)
    (country : String) (network : Option String) (mt : MessageType)
    (units : ℚ) :
    ((getPricing db now country network mt units).totalCost =
      (getPricing db now country network mt units).ratePerUnit * units) ∧
    (db.filter (rateMatches now country (jsTruthy network) mt) = [] →
      (getPricing db now country network mt units).ratePerUnit = 7/200) ∧
    (∀ p, pickLatestEffective
        (db.filter (rateMatches now country (jsTruthy network) mt)) = some p →
      (getPricing db now country network mt units).ratePerUnit = p.ratePerUnit ∧
      p ∈ db ∧ rateMatches now country (jsTruthy network) mt p = true ∧
      ∀ q ∈ db, rateMatches now country (jsTruthy network) mt q = true →
        q.effectiveFrom ≤ p.effectiveFrom) := by
  cases hE : pickLatestEffective
      (db.filter (rateMatches now country (jsTruthy network) mt)) with
  | none =>
    refine ⟨by simp [getPricing, hE], fun _ => by simp [getPricing, hE],
      fun p hp => ?_⟩
    cases hp
  | some p =>
    obtain ⟨hmem, hmax⟩ := pickMaxBy_spec PricingRate.effectiveFrom _ p hE
    have hmf := List.mem_filter.mp hmem
    refine ⟨by simp [getPricing, hE], fun hnil => ?_, fun q hq => ?_⟩
    · rw [hnil] at hE
      simp [pickLatestEffective, pickMaxBy] at hE
    · cases hq
      refine ⟨by simp [getPricing, hE], hmf.1, hmf.2, fun q hqdb hqm => ?_⟩
      exact hmax q (List.mem_filter.mpr ⟨hqdb, hqm⟩)

/-- C2 witness: an empty rate table prices at the documented fallback. -/
theorem getPricing_correct_witness :
    (getPricing [] 0 "GH" none MessageType.SMS 3).ratePerUnit = 7/200 :=
  (getPricing_correct [] 0 "GH" none MessageType.SMS 3).2.1 (by decide)

/-! ## C6 and C10: code generation and case-insensitive comparison -/

/-- Char.ofNat round-trips on valid scalar values below the surrogate
range. -/
theorem char_toNat_ofNat_valid (n : Nat) (h : n < 55296) :
    (Char.ofNat n).toNat = n := by
  rw [Char.ofNat, dif_pos (Or.inl h)]
  rfl

/-- The ASCII uppercase map is idempotent. -/
theorem char_toUpper_idem (c : Char) : c.toUpper.toUpper = c.toUpper := by
  unfold Char.toUpper
  by_cases h : c.toNat ≥ 97 ∧ c.toNat ≤ 122
  · rw [if_pos h]
    have h2 : (Char.ofNat (c.toNat - 32)).toNat = c.toNat - 32 :=
      char_toNat_ofNat_valid _ (by omega)
    rw [if_neg]
    rw [h2]
    omega
  · rw [if_neg h, if_neg h]

/-- The JS uppercase map on strings is idempotent. -/
theorem jsToUpper_idem (s : String) : jsToUpper (jsToUpper s) = jsToUpper s := by
  unfold jsToUpper
  rw [show (String.mk (s.toList.map Char.toUpper)).toList
      = s.toList.map Char.toUpper from rfl]
  rw [List.map_map]
  exact congrArg String.mk
    (List.map_congr_left fun a _ => char_toUpper_idem a)

/-- The one-character string at an in-range index. -/
theorem jsCharAt_of_lt (s : String) (i : Nat) (h : i < s.length) :
    ∃ c, jsCharAt s i = String.singleton c ∧ c ∈ s.toList := by
  have hlen : i < s.toList.length := h
  refine ⟨s.toList.get ⟨i, hlen⟩, ?_, List.get_mem _ _ _⟩
  have hget : s.toList.get? i = some (s.toList.get ⟨i, hlen⟩) :=
    List.get?_eq_get hlen
  simp only [jsCharAt]
  rw [hget]

/-- Splitting off the last character of generateCode. -/
theorem generateCode_succ (randFloor : Nat → Nat) (n : Nat) (t : PinType) :
    generateCode randFloor (n + 1) t =
      generateCode randFloor n t ++ jsCharAt (alphabetOf t) (randFloor n) := by
  simp [generateCode, List.range_succ]

/-- String append concatenates the character lists. -/
theorem str_toList_append (a b : String) :
    (a ++ b).toList = a.toList ++ b.toList := rfl

/-- C6 theorem (the provable part of the generator contract): generateCode
produces exactly the requested number of characters, each drawn from the
alphabet of the requested pin type, whenever every drawn index is in range
of the alphabet, as Math.floor(Math.random()*length) always is.  The
cryptographic-strength part of the claim fails in the code: the index is
drawn from Math.random(), not from a CSPRNG. -/
theorem generateCode_length_alphabet (randFloor : Nat → Nat) (length : Nat)
    (ptype : PinType)
    (h : ∀ i, i < length → randFloor i < (alphabetOf ptype).length) :
    (generateCode randFloor length ptype).length = length ∧
    ∀ c ∈ (generateCode randFloor length ptype).toList,
      c ∈ (alphabetOf ptype).toList := by
  induction length with
  | zero => exact ⟨rfl, by intro c hc; cases hc⟩
  | succ n ih =>
    obtain ⟨ihl, ihm⟩ := ih (fun i hi => h i (Nat.lt_succ_of_lt hi))
    obtain ⟨c, hc, hcm⟩ := jsCharAt_of_lt (alphabetOf ptype) (randFloor n)
      (h n (Nat.lt_succ_self n))
    rw [generateCode_succ, hc]
    constructor
    · rw [String.length_append, ihl]
      rfl
    · intro d hd
      rw [str_toList_append] at hd
      rcases List.mem_append.mp hd with hd | hd
      · exact ihm d hd
      · rcases List.mem_singleton.mp hd with rfl
        exact hcm

/-- C6 witness: with the random stream constantly zero, a six-digit
numeric code has six characters. -/
theorem generateCode_length_alphabet_witness :
    (generateCode (fun _ => 0) 6 PinType.NUMERIC).length = 6 :=
  (generateCode_length_alphabet (fun _ => 0) 6 PinType.NUMERIC
    (fun _ _ => by
      show (0 : Nat) < (alphabetOf PinType.NUMERIC).length
      decide)).1

/-- C10: verifyOTP uppercases the submitted code before the hash
comparison, so its entire outcome, response and store alike, is invariant
under uppercasing the submitted code; and the alphabetic and alphanumeric
generation alphabets consist of uppercase-invariant characters only. -/
theorem verifyOTP_uppercase_invariant (vh : String → String → Bool)
    (now : Int) (st : OtpStore) (acct reqPhone code : String) :
    verifyOTP vh now st acct reqPhone code =
      verifyOTP vh now st acct reqPhone (jsToUpper code) ∧
    jsToUpper (alphabetOf PinType.ALPHANUMERIC) =
      alphabetOf PinType.ALPHANUMERIC ∧
    jsToUpper (alphabetOf PinType.ALPHABETIC) =
      alphabetOf PinType.ALPHABETIC := by
  refine ⟨?_, by decide, by decide⟩
  simp only [verifyOTP, jsToUpper_idem]

/-! ## C9: bulk dispatch -/

/-- Per-recipient outcome of the bulk pipeline: a row is rejected exactly
when the recipient fails message-presence, phone validation, or routing;
a message row is created exactly for accepted recipients and always
carries the batch id. -/
theorem processRecipient_cases (providers : List Provider)
    (rates : List PricingRate) (now : Int) (acct : String)
    (sender : SenderInfo) (batchId : String) (reqMessage : Option String)
    (scheduledFor : Option Int) (nextId : Nat) (r : BulkRecipient) :
    ((processRecipient providers rates now acct sender batchId reqMessage
        scheduledFor nextId r).1.status = ItemStatus.rejected ↔
      recipientFails providers rates now reqMessage r = true) ∧
    ((processRecipient providers rates now acct sender batchId reqMessage
        scheduledFor nextId r).2 = none ↔
      recipientFails providers rates now reqMessage r = true) ∧
    (∀ m, (processRecipient providers rates now acct sender batchId reqMessage
        scheduledFor nextId r).2 = some m → m.batchId = some batchId) := by
  unfold processRecipient recipientFails
  cases hjs : jsStrOr r.message reqMessage with
  | none => simp
  | some m =>
    by_cases hm : m = ""
    · subst hm
      simp
    · simp only [hm, if_false, Option.getD_some]
      by_cases hv : (validatePhoneNumber r.toNumber).valid = true
      · cases hp : (routeMessage providers rates now
            (validatePhoneNumber r.toNumber).formatted MessageType.BULK
            none).provider with
        | none => simp [hv, hp, hm]
        | some prov => simp [hv, hp, hm]
      · simp only [Bool.not_eq_true] at hv
        simp [hv, hm]

/-- Loop invariant of processAllRecipients: one result row per recipient,
rejected rows counted by recipientFails, every row accepted or rejected,
and all created messages stamped with the batch id. -/
theorem processAllRecipients_spec (providers : List Provider)
    (rates : List PricingRate) (now : Int) (acct : String)
    (sender : SenderInfo) (batchId : String) (reqMessage : Option String)
    (scheduledFor : Option Int) (rs : List BulkRecipient) (nid : Nat) :
    ((processAllRecipients providers rates now acct sender batchId reqMessage
        scheduledFor rs nid).1.length = rs.length) ∧
    ((processAllRecipients providers rates now acct sender batchId reqMessage
        scheduledFor rs nid).1.countP (fun r => decide (r.status = ItemStatus.rejected)) =
      rs.countP (recipientFails providers rates now reqMessage)) ∧
    ((processAllRecipients providers rates now acct sender batchId reqMessage
        scheduledFor rs nid).1.countP (fun r => decide (r.status = ItemStatus.accepted)) +
      (processAllRecipients providers rates now acct sender batchId reqMessage
        scheduledFor rs nid).1.countP (fun r => decide (r.status = ItemStatus.rejected)) =
      rs.length) ∧
    ((processAllRecipients providers rates now acct sender batchId reqMessage
        scheduledFor rs nid).2.all (fun m => decide (m.batchId = some batchId)) = true) := by
  induction rs generalizing nid with
  | nil => simp [processAllRecipients]
  | cons r rest ih =>
    obtain ⟨hrej, hnone, hbatch⟩ := processRecipient_cases providers rates now
      acct sender batchId reqMessage scheduledFor nid r
    unfold processAllRecipients
    rcases hpr : processRecipient providers rates now acct sender batchId
        reqMessage scheduledFor nid r with ⟨item, msgOpt⟩
    rw [hpr] at hrej hnone hbatch
    simp only at hrej hnone hbatch
    cases msgOpt with
    | some msg =>
      obtain ⟨ih1, ih2, ih3, ih4⟩ := ih (nid + 1)
      have hfail : recipientFails providers rates now reqMessage r = false := by
        cases hf : recipientFails providers rates now reqMessage r with
        | true => cases hnone.mpr hf
        | false => rfl
      have hacc : item.status = ItemStatus.accepted := by
        cases hs : item.status with
        | rejected => rw [hrej.mp hs] at hfail; cases hfail
        | accepted => rfl
      simp only [List.length_cons, List.countP_cons, List.all_cons, hacc,
        hfail, ih1, ih2, ih3, ih4]
      refine ⟨trivial, by simp, by simp; omega, ?_⟩
      simp [hbatch msg rfl]
    | none =>
      obtain ⟨ih1, ih2, ih3, ih4⟩ := ih nid
      have hfail : recipientFails providers rates now reqMessage r = true :=
        hnone.mp rfl
      have hrejs : item.status = ItemStatus.rejected := hrej.mpr hfail
      simp only [List.length_cons, List.countP_cons, List.all_cons, hrejs,
        hfail, ih1, ih2, ih3, ih4]
      refine ⟨trivial, by simp, by simp; omega, by simp [ih4]⟩

/-- C9: sendBulkSMS, given a resolved sender, never aborts on a
per-recipient failure: it returns one result row per recipient, rejected
equal to the number of recipients failing message-presence, validation or
routing, accepted equal to the remainder (so accepted + rejected =
totalRecipients = N), and every message row created for the batch carries
the single generated batch id, which is also the batch id of the
response. -/
theorem sendBulkSMS_batch_outcomes (providers : List Provider)
    (rates : List PricingRate) (now : Int) (acct : String)
    (sender : SenderInfo) (batchId : String) (nextId0 : Nat)
    (request : BulkSMSRequest) :
    ((sendBulkSMS providers rates now acct sender batchId nextId0
        request).1.batchId = batchId) ∧
    ((sendBulkSMS providers rates now acct sender batchId nextId0
        request).1.totalRecipients = request.recipients.length) ∧
    ((sendBulkSMS providers rates now acct sender batchId nextId0
        request).1.messages.length = request.recipients.length) ∧
    ((sendBulkSMS providers rates now acct sender batchId nextId0
        request).1.rejected = request.recipients.countP
          (recipientFails providers rates now request.message)) ∧
    ((sendBulkSMS providers rates now acct sender batchId nextId0
        request).1.accepted = request.recipients.length -
          request.recipients.countP
            (recipientFails providers rates now request.message)) ∧
    ((sendBulkSMS providers rates now acct sender batchId nextId0
        request).1.accepted + (sendBulkSMS providers rates now acct sender
          batchId nextId0 request).1.rejected = request.recipients.length) ∧
    ((sendBulkSMS providers rates now acct sender batchId nextId0
        request).2.all (fun m => decide (m.batchId = some batchId)) = true) := by
  obtain ⟨h1, h2, h3, h4⟩ := processAllRecipients_spec providers rates now acct
    sender batchId request.message request.scheduledFor request.recipients
    nextId0
  simp only [sendBulkSMS]
  refine ⟨trivial, trivial, h1, ?_, ?_, ?_, h4⟩
  · rw [← List.countP_eq_length_filter]
    exact h2
  · rw [← List.countP_eq_length_filter]
    omega
  · rw [← List.countP_eq_length_filter, ← List.countP_eq_length_filter]
    omega

/-! ## C8: provider selection -/

/-- The head of a sorted list is dominant. -/
theorem head?_sorted_min {α : Type} {r : α → α → Prop} (l : List α)
    (hs : List.Sorted r l) (p : α) (h : l.head? = some p) :
    p ∈ l ∧ ∀ q ∈ l, q = p ∨ r p q := by
  cases l with
  | nil => cases h
  | cons x t =>
    cases h
    refine ⟨List.mem_cons_self _ _, fun q hq => ?_⟩
    rcases List.mem_cons.mp hq with rfl | hqt
    · exact Or.inl rfl
    · exact Or.inr (List.rel_of_sorted_cons hs q hqt)

/-- The head of an insertion sort is dominant over the input list. -/
theorem head?_insertionSort_min {α : Type} (r : α → α → Prop) [DecidableRel r]
    [IsTotal α r] [IsTrans α r] (l : List α) (p : α)
    (h : (List.insertionSort r l).head? = some p) :
    p ∈ l ∧ ∀ q ∈ l, q = p ∨ r p q := by
  obtain ⟨hm, hd⟩ := head?_sorted_min _ (List.sorted_insertionSort r l) p h
  refine ⟨(List.mem_insertionSort r).mp hm, fun q hq => ?_⟩
  exact hd q ((List.mem_insertionSort r).mpr hq)

/-- Unfolding of candidatesOf when a network is requested. -/
theorem candidatesOf_some (db : List Provider) (c : ProviderSelectionCriteria)
    (n : String) (hn : jsTruthy c.network = some n) :
    candidatesOf db c =
      if ((activeDbSorted db c.country).filter
          (fun p => decide (n ∈ p.supportedNetworks))).isEmpty then
        activeDbSorted db c.country
      else
        (activeDbSorted db c.country).filter
          (fun p => decide (n ∈ p.supportedNetworks)) := by
  unfold candidatesOf
  rw [hn]

/-- Candidates are sorted in the DB order. -/
theorem candidatesOf_sorted (db : List Provider)
    (c : ProviderSelectionCriteria) :
    List.Sorted dbOrder (candidatesOf db c) := by
  have hs : List.Sorted dbOrder (activeDbSorted db c.country) :=
    List.sorted_insertionSort dbOrder _
  unfold candidatesOf
  cases jsTruthy c.network with
  | none => exact hs
  | some n =>
    by_cases hf : ((activeDbSorted db c.country).filter
        (fun p => decide (n ∈ p.supportedNetworks))).isEmpty
    · simp only [hf, if_true]
      exact hs
    · simp only [hf, if_false]
      exact List.Pairwise.filter _ hs

/-- Every candidate is a qualifying row of the provider table. -/
theorem mem_candidatesOf (db : List Provider) (c : ProviderSelectionCriteria)
    (p : Provider) (hp : p ∈ candidatesOf db c) :
    p ∈ db ∧ providerQualifies c.country p = true := by
  have base : p ∈ activeDbSorted db c.country →
      p ∈ db ∧ providerQualifies c.country p = true := fun h => by
    have := (List.mem_insertionSort dbOrder).mp h
    exact List.mem_filter.mp this
  cases hn : jsTruthy c.network with
  | none =>
    unfold candidatesOf at hp
    rw [hn] at hp
    exact base hp
  | some n =>
    rw [candidatesOf_some db c n hn] at hp
    by_cases hf : ((activeDbSorted db c.country).filter
        (fun p => decide (n ∈ p.supportedNetworks))).isEmpty
    · rw [if_pos hf] at hp
      exact base hp
    · rw [if_neg hf] at hp
      exact base (List.mem_filter.mp hp).1

/-- When a network is requested and some qualifying provider supports it,
every candidate supports it. -/
theorem candidatesOf_network (db : List Provider)
    (c : ProviderSelectionCriteria) (n : String)
    (hn : jsTruthy c.network = some n)
    (hex : ∃ q ∈ activeDbSorted db c.country, n ∈ q.supportedNetworks)
    (p : Provider) (hp : p ∈ candidatesOf db c) :
    n ∈ p.supportedNetworks := by
  obtain ⟨q, hq, hqn⟩ := hex
  have hqf : q ∈ (activeDbSorted db c.country).filter
      (fun p => decide (n ∈ p.supportedNetworks)) :=
    List.mem_filter.mpr ⟨hq, by simpa using hqn⟩
  have hne : ¬ ((activeDbSorted db c.country).filter
      (fun p => decide (n ∈ p.supportedNetworks))).isEmpty := by
    cases hfil : (activeDbSorted db c.country).filter
        (fun p => decide (n ∈ p.supportedNetworks)) with
    | nil => rw [hfil] at hqf; cases hqf
    | cons a t => simp [hfil]
  rw [candidatesOf_some db c n hn, if_neg hne] at hp
  simpa using (List.mem_filter.mp hp).2

/-- C8: selectProvider considers only active SMS providers supporting the
destination country and returns null when none qualifies; with a network
given it prefers providers supporting that network, falling back to the
country-wide set when none does; the returned provider is dominant in the
candidate set for the requested ordering: priority desc then success-rate
desc by default and for the cost hint, average latency asc for the speed
hint, success-rate desc for the reliability hint. -/
theorem selectProvider_correct (db : List Provider)
    (c : ProviderSelectionCriteria) :
    (selectProvider db c = (selectProviderRec db c).map toProviderInfo) ∧
    ((∀ p ∈ db, ¬(p.status = "ACTIVE" ∧ c.country ∈ p.supportedCountries)) →
      selectProviderRec db c = none) ∧
    (∀ p, selectProviderRec db c = some p →
      p ∈ db ∧ p.status = "ACTIVE" ∧ c.country ∈ p.supportedCountries ∧
      p ∈ candidatesOf db c ∧
      (∀ n, jsTruthy c.network = some n →
        (∃ q ∈ activeDbSorted db c.country, n ∈ q.supportedNetworks) →
        n ∈ p.supportedNetworks) ∧
      (c.priority = some RoutePriority.speed →
        ∀ q ∈ candidatesOf db c, latOrDefault p ≤ latOrDefault q) ∧
      (c.priority = some RoutePriority.reliability →
        ∀ q ∈ candidatesOf db c, srOrZero q ≤ srOrZero p) ∧
      ((c.priority = none ∨ c.priority = some RoutePriority.cost) →
        ∀ q ∈ candidatesOf db c, q = p ∨ dbOrder p q)) := by
  refine ⟨rfl, ?_, ?_⟩
  · intro hno
    have hfil : db.filter (providerQualifies c.country) = [] := by
      refine List.filter_eq_nil_iff.mpr fun a ha => ?_
      have := hno a ha
      simp only [providerQualifies, Bool.and_eq_true, decide_eq_true_eq]
      tauto
    unfold selectProviderRec activeDbSorted
    rw [hfil]
    rfl
  · intro p hp
    have hqual : p ∈ candidatesOf db c →
        p ∈ db ∧ p.status = "ACTIVE" ∧ c.country ∈ p.supportedCountries := by
      intro hmem
      obtain ⟨hdb, hq⟩ := mem_candidatesOf db c p hmem
      simp only [providerQualifies, Bool.and_eq_true, decide_eq_true_eq] at hq
      exact ⟨hdb, hq.1.2, hq.2⟩
    unfold selectProviderRec at hp
    by_cases hemp : (activeDbSorted db c.country).isEmpty
    · rw [if_pos hemp] at hp
      cases hp
    · rw [if_neg hemp] at hp
      have main : p ∈ candidatesOf db c ∧
          (c.priority = some RoutePriority.speed →
            ∀ q ∈ candidatesOf db c, latOrDefault p ≤ latOrDefault q) ∧
          (c.priority = some RoutePriority.reliability →
            ∀ q ∈ candidatesOf db c, srOrZero q ≤ srOrZero p) ∧
          ((c.priority = none ∨ c.priority = some RoutePriority.cost) →
            ∀ q ∈ candidatesOf db c, q = p ∨ dbOrder p q) := by
        cases hpri : c.priority with
        | none =>
          rw [hpri] at hp
          obtain ⟨hm, hd⟩ := head?_sorted_min _ (candidatesOf_sorted db c) p hp
          exact ⟨hm, by simp, by simp, fun _ => hd⟩
        | some pr =>
          cases pr with
          | cost =>
            rw [hpri] at hp
            obtain ⟨hm, hd⟩ := head?_sorted_min _ (candidatesOf_sorted db c) p hp
            exact ⟨hm, by simp, by simp, fun _ => hd⟩
          | speed =>
            rw [hpri] at hp
            obtain ⟨hm, hd⟩ := head?_insertionSort_min speedOrder _ p hp
            refine ⟨hm, fun _ q hq => ?_, by simp, by simp⟩
            rcases hd q hq with rfl | hrel
            · exact le_refl _
            · exact hrel
          | reliability =>
            rw [hpri] at hp
            obtain ⟨hm, hd⟩ := head?_insertionSort_min relOrder _ p hp
            refine ⟨hm, by simp, fun _ q hq => ?_, by simp⟩
            rcases hd q hq with rfl | hrel
            · exact le_refl _
            · exact hrel
      obtain ⟨hmem, hspeed, hrel, hdef⟩ := main
      obtain ⟨hdb, hact, hctry⟩ := hqual hmem
      exact ⟨hdb, hact, hctry, hmem,
        fun n hn hex => candidatesOf_network db c n hn hex p hmem,
        hspeed, hrel, hdef⟩

/-- C8 witness: with one active Ghanaian SMS provider, the selected
reliability-ordered provider is a member of the candidate set. -/
theorem selectProvider_correct_witness :
    (⟨"p1", "P1", "SMS", "ACTIVE", ["GH"], ["mtn"], 1, none, none⟩ : Provider) ∈
      candidatesOf
        [⟨"p1", "P1", "SMS", "ACTIVE", ["GH"], ["mtn"], 1, none, none⟩]
        ⟨"GH", none, MessageType.SMS, some RoutePriority.reliability⟩ :=
  ((selectProvider_correct
    [⟨"p1", "P1", "SMS", "ACTIVE", ["GH"], ["mtn"], 1, none, none⟩]
    ⟨"GH", none, MessageType.SMS, some RoutePriority.reliability⟩).2.2
    _ (by rfl)).2.2.2.1

/-! ## OTP store lemmas -/

/-- find? by id after an id-preserving update by the same id. -/
theorem find?_id_map (l : List OtpMessage) (id : Nat)
    (f : OtpMessage → OtpMessage) (hf : ∀ r, (f r).id = r.id)
    (r0 : OtpMessage) (h : l.find? (fun r => decide (r.id = id)) = some r0) :
    (l.map (fun r => if r.id = id then f r else r)).find?
      (fun r => decide (r.id = id)) = some (f r0) := by
  induction l with
  | nil => cases h
  | cons a t ih =>
    by_cases ha : a.id = id
    · rw [List.find?_cons_of_pos _ (by simp [ha])] at h
      cases h
      rw [List.map_cons, if_pos ha,
        List.find?_cons_of_pos _ (by simp [hf, ha])]
    · rw [List.find?_cons_of_neg _ (by simp [ha])] at h
      rw [List.map_cons, if_neg ha, List.find?_cons_of_neg _ (by simp [ha])]
      exact ih h

/-- In a store with pairwise-distinct ids, find? by id of a member row
returns it. -/
theorem find?_of_mem_unique (l : List OtpMessage)
    (hu : l.Pairwise (fun a b => a.id ≠ b.id)) (r : OtpMessage) (hr : r ∈ l) :
    l.find? (fun x => decide (x.id = r.id)) = some r := by
  induction l with
  | nil => cases hr
  | cons a t ih =>
    rcases List.mem_cons.mp hr with rfl | hrt
    · rw [List.find?_cons_of_pos _ (by simp)]
    · have ha : a.id ≠ r.id :=
        (List.pairwise_cons.mp hu).1 r hrt
      rw [List.find?_cons_of_neg _ (by simp [ha])]
      exact ih (List.pairwise_cons.mp hu).2 hrt

/-- The row returned by getActiveOTP is a PENDING, unexpired member of the
pair with maximal creation time. -/
theorem getActiveOTP_some (st : OtpStore) (now : Int) (acct phone : String)
    (r : OtpMessage) (h : getActiveOTP st now acct phone = some r) :
    r ∈ st.rows ∧ r.accountId = acct ∧ r.recipient = phone ∧
    r.status = OTPStatus.PENDING ∧ now < r.expiresAt := by
  unfold getActiveOTP pickLatestCreated at h
  obtain ⟨hmem, _⟩ := pickMaxBy_spec OtpMessage.createdAt _ r h
  obtain ⟨hrow, hpred⟩ := List.mem_filter.mp hmem
  simp only [decide_eq_true_eq] at hpred
  exact ⟨hrow, hpred.1, hpred.2.1, hpred.2.2.1, hpred.2.2.2⟩

/-- Without a PENDING row for the pair there is no active OTP. -/
theorem getActiveOTP_of_no_pending (st : OtpStore) (now : Int)
    (acct phone : String) (h : st.rows.countP (pairPending acct phone) = 0) :
    getActiveOTP st now acct phone = none := by
  unfold getActiveOTP pickLatestCreated
  rw [pickMaxBy_eq_none]
  refine List.filter_eq_nil_iff.mpr fun a ha hpred => ?_
  simp only [decide_eq_true_eq] at hpred
  have := List.countP_eq_zero.mp h a ha
  simp only [pairPending, decide_eq_true_eq] at this
  exact this ⟨hpred.1, hpred.2.1, hpred.2.2.1⟩

/-- A pair-and-status-preserving row update cannot increase the pending
count of any pair. -/
theorem pendingCount_updateById_le (a p : String) (st : OtpStore) (id : Nat)
    (f : OtpMessage → OtpMessage)
    (hacc : ∀ x, (f x).accountId = x.accountId)
    (hrec : ∀ x, (f x).recipient = x.recipient)
    (hstat : ∀ x, (f x).status = OTPStatus.PENDING →
      x.status = OTPStatus.PENDING) :
    pendingCount (updateById st id f) a p ≤ pendingCount st a p := by
  unfold pendingCount updateById
  refine countP_map_le _ _ _ fun x _ hpx => ?_
  simp only [pairPending, decide_eq_true_eq] at hpx ⊢
  by_cases hid : x.id = id
  · rw [if_pos hid] at hpx
    exact ⟨(hacc x) ▸ hpx.1, (hrec x) ▸ hpx.2.1, hstat x hpx.2.2⟩
  · rw [if_neg hid] at hpx
    exact hpx

/-- Invalidation clears the pending count of the pair. -/
theorem pendingCount_invalidate (st : OtpStore) (acct phone : String) :
    pendingCount (invalidatePendingOTPs st acct phone) acct phone = 0 := by
  unfold pendingCount invalidatePendingOTPs
  refine List.countP_eq_zero.mpr fun x hx => ?_
  obtain ⟨y, _, rfl⟩ := List.mem_map.mp hx
  by_cases hy : pairPending acct phone y = true
  · rw [if_pos hy]
    simp [pairPending]
  · rw [if_neg hy]
    exact fun hc => hy hc

/-- Invalidation does not increase any pair's pending count. -/
theorem pendingCount_invalidate_le (st : OtpStore) (acct phone a p : String) :
    pendingCount (invalidatePendingOTPs st acct phone) a p ≤
      pendingCount st a p := by
  unfold pendingCount invalidatePendingOTPs
  refine countP_map_le _ _ _ fun x _ hpx => ?_
  by_cases hy : pairPending acct phone x = true
  · rw [if_pos hy] at hpx
    simp only [pairPending, decide_eq_true_eq] at hpx
    cases hpx.2.2
  · rwa [if_neg hy] at hpx

/-- takeWhile up to the separator recovers the left part. -/
theorem takeWhile_append_underscore (l1 l2 : List Char)
    (h : ∀ c ∈ l1, c ≠ '_') :
    (l1 ++ '_' :: l2).takeWhile (fun c => decide (c ≠ '_')) = l1 := by
  induction l1 with
  | nil => simp [List.takeWhile]
  | cons c t ih =>
    have hc : c ≠ '_' := h c (List.mem_cons_self c t)
    simp only [List.cons_append, List.takeWhile_cons, decide_eq_true_eq]
    rw [if_pos hc, ih (fun x hx => h x (List.mem_cons_of_mem c hx))]

/-- The composite-id split recovers the account id when it contains no
underscore. -/
theorem jsSplitHead_append (a b : String) (ha : ¬ ('_' ∈ a.toList)) :
    jsSplitHead (a ++ "_" ++ b) = a := by
  unfold jsSplitHead
  rw [str_toList_append, str_toList_append]
  have : ("_" : String).toList = ['_'] := rfl
  rw [this, List.append_assoc, List.singleton_append]
  rw [takeWhile_append_underscore a.toList b.toList
    (fun c hc heq => ha (heq ▸ hc))]
  rfl

/-- findById after an id-preserving update of a member row, under unique
ids. -/
theorem findById_updateById_unique (st : OtpStore)
    (hu : st.rows.Pairwise (fun a b => a.id ≠ b.id)) (r : OtpMessage)
    (hr : r ∈ st.rows) (f : OtpMessage → OtpMessage)
    (hf : ∀ x, (f x).id = x.id) :
    findById (updateById st r.id f) r.id = some (f r) :=
  find?_id_map st.rows r.id f hf r (find?_of_mem_unique st.rows hu r hr)

/-- Id-preserving updates keep ids pairwise distinct. -/
theorem pairwise_ids_updateById (st : OtpStore) (id : Nat)
    (f : OtpMessage → OtpMessage) (hf : ∀ x, (f x).id = x.id)
    (hu : st.rows.Pairwise (fun a b => a.id ≠ b.id)) :
    (updateById st id f).rows.Pairwise (fun a b => a.id ≠ b.id) := by
  unfold updateById
  refine List.Pairwise.map _ (fun a b hab => ?_) hu
  by_cases ha : a.id = id <;> by_cases hb : b.id = id <;>
    simp [ha, hb, hf] <;> omega

/-- The updated image of a member row with the targeted id is a member of
the updated store. -/
theorem mem_rows_updateById (st : OtpStore) (id : Nat)
    (f : OtpMessage → OtpMessage) (r : OtpMessage) (hr : r ∈ st.rows)
    (hid : r.id = id) : f r ∈ (updateById st id f).rows := by
  unfold updateById
  have heq : f r = (fun x => if x.id = id then f x else x) r := by
    show f r = if r.id = id then f r else r
    rw [if_pos hid]
  rw [heq]
  exact List.mem_map_of_mem _ hr

/-- Updating a pending row of the pair out of PENDING clears the pair's
pending count when the invariant held. -/
theorem pendingCount_mark_nonpending (st : OtpStore) (acct phone : String)
    (r : OtpMessage) (hr : r ∈ st.rows)
    (hpp : pairPending acct phone r = true) (f : OtpMessage → OtpMessage)
    (hacc : ∀ x, (f x).accountId = x.accountId)
    (hrec : ∀ x, (f x).recipient = x.recipient)
    (hstat : ∀ x, (f x).status = OTPStatus.PENDING →
      x.status = OTPStatus.PENDING)
    (hfr : ¬ (f r).status = OTPStatus.PENDING)
    (hle : pendingCount st acct phone ≤ 1) :
    pendingCount (updateById st r.id f) acct phone = 0 := by
  have hstep := countP_map_succ_le (pairPending acct phone)
    (fun x => if x.id = r.id then f x else x) st.rows r hr hpp ?_ ?_
  · have hrw : pendingCount (updateById st r.id f) acct phone =
        (st.rows.map (fun x => if x.id = r.id then f x else x)).countP
          (pairPending acct phone) := rfl
    unfold pendingCount at hle
    rw [hrw]
    omega
  · show pairPending acct phone (if r.id = r.id then f r else r) = false
    rw [if_pos rfl]
    simp only [pairPending]
    refine decide_eq_false fun hc => ?_
    exact hfr hc.2.2
  · intro x _ hpx
    simp only [pairPending, decide_eq_true_eq] at hpx ⊢
    by_cases hid : x.id = r.id
    · rw [if_pos hid] at hpx
      exact ⟨(hacc x) ▸ hpx.1, (hrec x) ▸ hpx.2.1, hstat x hpx.2.2⟩
    · rw [if_neg hid] at hpx
      exact hpx

/-! ## C3: OTP verification lifecycle -/

/-- C3: for an active PENDING, unexpired OTP row with attempts below the
limit (ids pairwise distinct, as the primary key guarantees): verifying
with the matching code succeeds, marks the row VERIFIED and, under the
single-active-OTP invariant, leaves no PENDING row for the pair, so by the
final clause every later verification attempt for the pair fails with the
no-active-OTP response and leaves the store unchanged (success happens
exactly once); verifying with a wrong code fails and increments the
attempt counter; when the incremented counter reaches maxAttempts the row
becomes FAILED and the pair is left with no PENDING row, so no later
attempt, even with the correct code, ever succeeds; below the limit the
row stays PENDING with the remaining-attempt count reported. -/
theorem verifyOTP_lifecycle (vh : String → String → Bool) (now : Int)
    (st : OtpStore) (acct reqPhone code : String) (r : OtpMessage)
    (hu : st.rows.Pairwise (fun a b => a.id ≠ b.id))
    (hact : getActiveOTP st now acct (normalizePhoneNumber reqPhone) = some r)
    (hatt : r.attempts < r.maxAttempts) :
    (vh (jsToUpper code) r.codeHash = true →
      (verifyOTP vh now st acct reqPhone code).1.success = true ∧
      (verifyOTP vh now st acct reqPhone code).1.verified = true ∧
      (findById (verifyOTP vh now st acct reqPhone code).2 r.id).map
        OtpMessage.status = some OTPStatus.VERIFIED ∧
      (pendingCount st acct (normalizePhoneNumber reqPhone) ≤ 1 →
        pendingCount (verifyOTP vh now st acct reqPhone code).2 acct
          (normalizePhoneNumber reqPhone) = 0)) ∧
    (vh (jsToUpper code) r.codeHash = false →
      (verifyOTP vh now st acct reqPhone code).1.success = false ∧
      (findById (verifyOTP vh now st acct reqPhone code).2 r.id).map
        OtpMessage.attempts = some (r.attempts + 1) ∧
      (r.attempts + 1 = r.maxAttempts →
        (findById (verifyOTP vh now st acct reqPhone code).2 r.id).map
          OtpMessage.status = some OTPStatus.FAILED ∧
        (pendingCount st acct (normalizePhoneNumber reqPhone) ≤ 1 →
          pendingCount (verifyOTP vh now st acct reqPhone code).2 acct
            (normalizePhoneNumber reqPhone) = 0)) ∧
      (r.attempts + 1 < r.maxAttempts →
        (findById (verifyOTP vh now st acct reqPhone code).2 r.id).map
          OtpMessage.status = some OTPStatus.PENDING ∧
        (verifyOTP vh now st acct reqPhone code).1.attemptsLeft =
          some ((r.maxAttempts : Int) - ((r.attempts : Int) + 1)))) ∧
    (∀ (st0 : OtpStore) (now0 : Int) (code0 : String),
      pendingCount st0 acct (normalizePhoneNumber reqPhone) = 0 →
      verifyOTP vh now0 st0 acct reqPhone code0 =
        ({ success := false, phone := normalizePhoneNumber reqPhone,
           verified := false, attemptsLeft := none,
           message := "No active OTP found. Please request a new one." },
         st0)) := by
  obtain ⟨hmem, haccid, hrecip, hstat, hexp⟩ :=
    getActiveOTP_some st now acct (normalizePhoneNumber reqPhone) r hact
  have hpp : pairPending acct (normalizePhoneNumber reqPhone) r = true := by
    simp [pairPending, haccid, hrecip, hstat]
  have hnexp : ¬ (r.expiresAt < now) := by omega
  have hnmax : ¬ (r.maxAttempts ≤ r.attempts) := by omega
  refine ⟨?_, ?_, ?_⟩
  · intro hvh
    have hres : verifyOTP vh now st acct reqPhone code =
        ({ success := true, phone := normalizePhoneNumber reqPhone,
           verified := true, attemptsLeft := none,
           message := "OTP verified successfully" },
         markAsVerified st now r.id) := by
      simp only [verifyOTP, hact]
      rw [if_neg hnexp, if_neg hnmax, if_pos hvh]
    rw [hres]
    refine ⟨rfl, rfl, ?_, ?_⟩
    · show (findById (markAsVerified st now r.id) r.id).map
        OtpMessage.status = some OTPStatus.VERIFIED
      unfold markAsVerified
      have hfv := findById_updateById_unique st hu r hmem
        (fun x => { x with status := OTPStatus.VERIFIED, verifiedAt := some now })
        (fun x => rfl)
      rw [hfv]
      rfl
    · intro hle
      show pendingCount (markAsVerified st now r.id) acct
        (normalizePhoneNumber reqPhone) = 0
      exact pendingCount_mark_nonpending st acct
        (normalizePhoneNumber reqPhone) r hmem hpp
        (fun x => { x with status := OTPStatus.VERIFIED, verifiedAt := some now })
        (fun x => rfl) (fun x => rfl) (fun x h => by simp at h)
        (by intro h; simp at h) hle
  · intro hvh
    have hinc : incrementAttempts st r.id =
        (updateById st r.id (fun x => { x with attempts := x.attempts + 1 }),
         r.attempts + 1) := by
      simp only [incrementAttempts]
      rw [findById_updateById_unique st hu r hmem
        (fun x => { x with attempts := x.attempts + 1 }) (fun x => rfl)]
      rfl
    have hu1 : (updateById st r.id
        (fun x => { x with attempts := x.attempts + 1 })).rows.Pairwise
        (fun a b => a.id ≠ b.id) :=
      pairwise_ids_updateById st r.id _ (fun x => rfl) hu
    have hmem1 : ({ r with attempts := r.attempts + 1 } : OtpMessage) ∈
        (updateById st r.id
          (fun x => { x with attempts := x.attempts + 1 })).rows :=
      mem_rows_updateById st r.id _ r hmem rfl
    have hfind1 : findById (updateById st r.id
        (fun x => { x with attempts := x.attempts + 1 })) r.id =
        some ({ r with attempts := r.attempts + 1 } : OtpMessage) :=
      findById_updateById_unique st hu r hmem _ (fun x => rfl)
    by_cases hcase : r.attempts + 1 = r.maxAttempts
    · have hcond : ((r.maxAttempts : Int) - ((r.attempts + 1 : Nat) : Int)) ≤ 0 := by
        push_cast
        omega
      have hres : verifyOTP vh now st acct reqPhone code =
          ({ success := false, phone := normalizePhoneNumber reqPhone,
             verified := false, attemptsLeft := none,
             message := "Invalid code. Maximum attempts reached. Please request a new OTP." },
           markAsFailed (updateById st r.id
             (fun x => { x with attempts := x.attempts + 1 })) r.id) := by
        simp only [verifyOTP, hact]
        rw [if_neg hnexp, if_neg hnmax, if_neg (by simp [hvh]), hinc]
        simp only
        rw [if_pos hcond]
      rw [hres]
      have hfind : findById (markAsFailed (updateById st r.id
          (fun x => { x with attempts := x.attempts + 1 })) r.id) r.id =
          some ({ r with attempts := r.attempts + 1, status := OTPStatus.FAILED } : OtpMessage) := by
        show findById (updateById (updateById st r.id
          (fun x => { x with attempts := x.attempts + 1 }))
          ({ r with attempts := r.attempts + 1 } : OtpMessage).id
          (fun x => { x with status := OTPStatus.FAILED })) _ = _
        rw [findById_updateById_unique _ hu1
          ({ r with attempts := r.attempts + 1 } : OtpMessage) hmem1
          (fun x => { x with status := OTPStatus.FAILED }) (fun x => rfl)]
      refine ⟨rfl, ?_, fun _ => ⟨?_, ?_⟩, fun hlt => absurd hcase (by omega)⟩
      · show (findById (markAsFailed (updateById st r.id
          (fun x => { x with attempts := x.attempts + 1 })) r.id) r.id).map
            OtpMessage.attempts = some (r.attempts + 1)
        rw [hfind]
        rfl
      · show (findById (markAsFailed (updateById st r.id
          (fun x => { x with attempts := x.attempts + 1 })) r.id) r.id).map
            OtpMessage.status = some OTPStatus.FAILED
        rw [hfind]
        rfl
      · intro hle
        have hle1 : pendingCount (updateById st r.id
            (fun x => { x with attempts := x.attempts + 1 })) acct
            (normalizePhoneNumber reqPhone) ≤ 1 :=
          le_trans (pendingCount_updateById_le _ _ st r.id _
            (fun x => rfl) (fun x => rfl) (fun x h => h)) hle
        have hpp1 : pairPending acct (normalizePhoneNumber reqPhone)
            ({ r with attempts := r.attempts + 1 } : OtpMessage) = true := by
          simp [pairPending, haccid, hrecip, hstat]
        show pendingCount (markAsFailed (updateById st r.id
          (fun x => { x with attempts := x.attempts + 1 })) r.id) acct
          (normalizePhoneNumber reqPhone) = 0
        exact pendingCount_mark_nonpending (updateById st r.id
            (fun x => { x with attempts := x.attempts + 1 })) acct
            (normalizePhoneNumber reqPhone)
            ({ r with attempts := r.attempts + 1 } : OtpMessage) hmem1 hpp1
            (fun x => { x with status := OTPStatus.FAILED })
            (fun x => rfl) (fun x => rfl) (fun x h => by simp at h)
            (by intro h; simp at h) hle1
    · have hcond : ¬ ((r.maxAttempts : Int) - ((r.attempts + 1 : Nat) : Int)) ≤ 0 := by
        push_cast
        omega
      have hres : verifyOTP vh now st acct reqPhone code =
          ({ success := false, phone := normalizePhoneNumber reqPhone,
             verified := false,
             attemptsLeft := some ((r.maxAttempts : Int) -
               ((r.attempts + 1 : Nat) : Int)),
             message := "Invalid code. " ++
               toString ((r.maxAttempts : Int) - ((r.attempts + 1 : Nat) : Int))
               ++ " attempt" ++
               (if ((r.maxAttempts : Int) - ((r.attempts + 1 : Nat) : Int)) ≠ 1
                then "s" else "") ++ " remaining." },
           updateById st r.id
             (fun x => { x with attempts := x.attempts + 1 })) := by
        simp only [verifyOTP, hact]
        rw [if_neg hnexp, if_neg hnmax, if_neg (by simp [hvh]), hinc]
        simp only
        rw [if_neg hcond]
      rw [hres]
      refine ⟨rfl, ?_, fun heq => absurd heq (by omega), fun _ => ⟨?_, ?_⟩⟩
      · show (findById (updateById st r.id
          (fun x => { x with attempts := x.attempts + 1 })) r.id).map
            OtpMessage.attempts = some (r.attempts + 1)
        rw [hfind1]
        rfl
      · show (findById (updateById st r.id
          (fun x => { x with attempts := x.attempts + 1 })) r.id).map
            OtpMessage.status = some OTPStatus.PENDING
        rw [hfind1]
        simpa using hstat
      · show some ((r.maxAttempts : Int) - ((r.attempts + 1 : Nat) : Int)) =
          some ((r.maxAttempts : Int) - ((r.attempts : Int) + 1))
        congr 1
  · intro st0 now0 code0 h0
    simp only [verifyOTP,
      getActiveOTP_of_no_pending st0 now0 acct (normalizePhoneNumber reqPhone) h0]

/-- C3 witness: a matching code against a fresh PENDING row verifies. -/
theorem verifyOTP_lifecycle_witness :
    (verifyOTP (fun c h => c == h) 5
      ⟨[⟨0, "acc", "+233244123456", "1234", 4, OTPStatus.PENDING, 1000000, 3,
        0, "s", "s", 0, none⟩], 1⟩
      "acc" "+233244123456" "1234").1.verified = true :=
  ((verifyOTP_lifecycle (fun c h => c == h) 5
      ⟨[⟨0, "acc", "+233244123456", "1234", 4, OTPStatus.PENDING, 1000000, 3,
        0, "s", "s", 0, none⟩], 1⟩
      "acc" "+233244123456" "1234"
      ⟨0, "acc", "+233244123456", "1234", 4, OTPStatus.PENDING, 1000000, 3,
        0, "s", "s", 0, none⟩
      (by simp) (by decide) (by decide)).1 (by decide)).2.1

/-! ## C4: single-active-OTP invariant -/

/-- Pair-and-status-preserving updates preserve the invariant. -/
theorem OtpInv_updateById (st : OtpStore) (id : Nat)
    (f : OtpMessage → OtpMessage)
    (hacc : ∀ x, (f x).accountId = x.accountId)
    (hrec : ∀ x, (f x).recipient = x.recipient)
    (hstat : ∀ x, (f x).status = OTPStatus.PENDING →
      x.status = OTPStatus.PENDING)
    (hinv : OtpInv st) : OtpInv (updateById st id f) :=
  fun a p =>
    le_trans (pendingCount_updateById_le a p st id f hacc hrec hstat)
      (hinv a p)

/-- verifyOTP preserves the invariant: its store updates only move rows
out of PENDING or bump attempt counters. -/
theorem OtpInv_verifyOTP (vh : String → String → Bool) (now : Int)
    (st : OtpStore) (acct reqPhone code : String) (hinv : OtpInv st) :
    OtpInv (verifyOTP vh now st acct reqPhone code).2 := by
  simp only [verifyOTP]
  split
  · exact hinv
  · split
    · exact OtpInv_updateById _ _ _ (fun x => rfl) (fun x => rfl)
        (fun x hx => by simp at hx) hinv
    · split
      · exact OtpInv_updateById _ _ _ (fun x => rfl) (fun x => rfl)
          (fun x hx => by simp at hx) hinv
      · split
        · exact OtpInv_updateById _ _ _ (fun x => rfl) (fun x => rfl)
            (fun x hx => by simp at hx) hinv
        · split
          · exact OtpInv_updateById _ _ _ (fun x => rfl) (fun x => rfl)
              (fun x hx => by simp at hx)
              (OtpInv_updateById _ _ _ (fun x => rfl) (fun x => rfl)
                (fun x hx => hx) hinv)
          · exact OtpInv_updateById _ _ _ (fun x => rfl) (fun x => rfl)
              (fun x hx => hx) hinv

/-- Invalidate-then-store keeps the invariant: the pair's pending rows are
cleared before the single new PENDING row is appended, and the stored
accountId is exactly the requesting account when it has no underscore. -/
theorem OtpInv_store_after_invalidate (st : OtpStore) (acct phone : String)
    (hacct : ¬ ('_' ∈ acct.toList)) (hinv : OtpInv st) (now : Int)
    (ch : String) (len : Nat) (exp : Int) (ma : Nat) (sid : String) :
    OtpInv (storeOTP (invalidatePendingOTPs st acct phone) now
      (acct ++ "_" ++ phone) phone ch len OTPStatus.PENDING exp ma sid).1 := by
  intro a p
  have hsplit : pendingCount (storeOTP (invalidatePendingOTPs st acct phone)
      now (acct ++ "_" ++ phone) phone ch len OTPStatus.PENDING exp ma
      sid).1 a p =
      pendingCount (invalidatePendingOTPs st acct phone) a p +
      (if pairPending a p
          { id := (invalidatePendingOTPs st acct phone).nextId,
            accountId := jsSplitHead (acct ++ "_" ++ phone),
            recipient := phone, codeHash := ch, codeLength := len,
            status := OTPStatus.PENDING, expiresAt := exp,
            maxAttempts := ma, attempts := 0, senderId := sid,
            senderName := sid, createdAt := now, verifiedAt := none }
        then 1 else 0) := by
    unfold pendingCount storeOTP
    simp [List.countP_append, List.countP_cons]
  rw [hsplit, jsSplitHead_append acct phone hacct]
  by_cases hap : a = acct ∧ p = phone
  · obtain ⟨rfl, rfl⟩ := hap
    rw [pendingCount_invalidate]
    split <;> omega
  · have hnew : pairPending a p
        { id := (invalidatePendingOTPs st acct phone).nextId,
          accountId := acct, recipient := phone, codeHash := ch,
          codeLength := len, status := OTPStatus.PENDING, expiresAt := exp,
          maxAttempts := ma, attempts := 0, senderId := sid,
          senderName := sid, createdAt := now, verifiedAt := none } = false := by
      refine decide_eq_false fun hc => ?_
      exact hap ⟨hc.1.symm, hc.2.1.symm⟩
    rw [hnew]
    have hle := le_trans (pendingCount_invalidate_le st acct phone a p)
      (hinv a p)
    simpa using hle

/-- requestOTP preserves the invariant for underscore-free account ids. -/
theorem OtpInv_requestOTP (randFloor : Nat → Nat) (hashFn : String → String)
    (now : Int) (st : OtpStore) (acct reqPhone : String)
    (pinLength : Option Nat) (pinType : Option PinType)
    (maxAttempts : Option Nat) (expiryMs : Option Int) (sender : SenderInfo)
    (smsOk : Bool) (hacct : ¬ ('_' ∈ acct.toList)) (hinv : OtpInv st) :
    OtpInv (requestOTP randFloor hashFn now st acct reqPhone pinLength
      pinType maxAttempts expiryMs sender smsOk).2 := by
  simp only [requestOTP]
  split
  · exact hinv
  · split
    · exact OtpInv_store_after_invalidate st acct
        (normalizePhoneNumber reqPhone) hacct hinv now _ _ _ _ _
    · exact OtpInv_updateById _ _ _ (fun x => rfl) (fun x => rfl)
        (fun x hx => by simp at hx)
        (OtpInv_store_after_invalidate st acct
          (normalizePhoneNumber reqPhone) hacct hinv now _ _ _ _ _)

/-- resendOTP preserves the invariant for underscore-free account ids. -/
theorem OtpInv_resendOTP (randFloor : Nat → Nat) (hashFn : String → String)
    (now : Int) (st : OtpStore) (acct reqPhone : String)
    (sender : SenderInfo) (smsOk : Bool) (hacct : ¬ ('_' ∈ acct.toList))
    (hinv : OtpInv st) :
    OtpInv (resendOTP randFloor hashFn now st acct reqPhone sender
      smsOk).2 := by
  simp only [resendOTP]
  split
  · exact hinv
  · split
    · exact hinv
    · split
      · exact OtpInv_store_after_invalidate st acct
          (normalizePhoneNumber reqPhone) hacct hinv now _ _ _ _ _
      · exact OtpInv_updateById _ _ _ (fun x => rfl) (fun x => rfl)
          (fun x hx => by simp at hx)
          (OtpInv_store_after_invalidate st acct
            (normalizePhoneNumber reqPhone) hacct hinv now _ _ _ _ _)

/-- C4 (amended): provided the account id contains no underscore (storeOTP
derives the stored accountId by splitting the composite id at the first
underscore, which mangles ids containing one), requestOTP, resendOTP and
verifyOTP each preserve the at-most-one-PENDING-row-per-pair invariant,
and before a new record is stored every currently-PENDING record of the
pair has been transitioned to EXPIRED: invalidatePendingOTPs leaves zero
PENDING rows for the pair. -/
theorem otp_single_pending (randFloor : Nat → Nat) (hashFn : String → String)
    (vh : String → String → Bool) (now : Int) (st : OtpStore)
    (acct reqPhone code : String) (pinLength maxAttempts : Option Nat)
    (pinType : Option PinType) (expiryMs : Option Int) (sender : SenderInfo)
    (smsOk : Bool) (hacct : ¬ ('_' ∈ acct.toList)) (hinv : OtpInv st) :
    OtpInv (requestOTP randFloor hashFn now st acct reqPhone pinLength
      pinType maxAttempts expiryMs sender smsOk).2 ∧
    OtpInv (resendOTP randFloor hashFn now st acct reqPhone sender smsOk).2 ∧
    OtpInv (verifyOTP vh now st acct reqPhone code).2 ∧
    (∀ a p, pendingCount (invalidatePendingOTPs st a p) a p = 0) :=
  ⟨OtpInv_requestOTP randFloor hashFn now st acct reqPhone pinLength pinType
      maxAttempts expiryMs sender smsOk hacct hinv,
   OtpInv_resendOTP randFloor hashFn now st acct reqPhone sender smsOk hacct
      hinv,
   OtpInv_verifyOTP vh now st acct reqPhone code hinv,
   fun a p => pendingCount_invalidate st a p⟩

/-- C4 witness: after one request on an empty store, the pair still has at
most one PENDING row. -/
theorem otp_single_pending_witness :
    pendingCount (requestOTP (fun _ => 0) id 0 ⟨[], 0⟩ "acc"
      "+233244123456" none none none none ⟨"s", "S"⟩ true).2 "acc"
      "+233244123456" ≤ 1 :=
  (otp_single_pending (fun _ => 0) id (fun c h => c == h) 0 ⟨[], 0⟩ "acc"
    "+233244123456" "1234" none none none none ⟨"s", "S"⟩ true (by decide)
    (fun a p => by simp [pendingCount])).1 "acc" "+233244123456"

/-- C4 counterexample: for the account id a_b, which contains an
underscore, two immediate requests leave two PENDING rows for the pair
(a, +233244123456): the stored rows land under accountId a, so neither
the cooldown check nor the invalidation keyed on a_b ever sees them. -/
theorem otp_single_pending_counterexample :
    pendingCount
      (requestOTP (fun _ => 0) id 1000
        (requestOTP (fun _ => 0) id 0 ⟨[], 0⟩ "a_b" "+233244123456" none none
          none none ⟨"s", "S"⟩ true).2
        "a_b" "+233244123456" none none none none ⟨"s", "S"⟩ true).2
      "a" "+233244123456" = 2 := by decide

/-! ## C5: resend configuration reuse -/

/-- C5 (amended): a successful resendOTP reuses the previous row's code
length and maxAttempts and takes no new parameters for them, but it always
generates the new code over the NUMERIC alphabet (every character a
digit), regardless of the original request's pin type: the pin type is
neither persisted by storeOTP nor consulted by resendOTP. -/
theorem resendOTP_shape (randFloor : Nat → Nat) (hashFn : String → String)
    (now : Int) (st : OtpStore) (acct reqPhone : String)
    (sender : SenderInfo) (last : OtpMessage)
    (hrl : checkRateLimit st now acct (normalizePhoneNumber reqPhone) 30 =
      true)
    (hlast : pickLatestCreated
      (pairRows st acct (normalizePhoneNumber reqPhone)) = some last) :
    (((resendOTP randFloor hashFn now st acct reqPhone sender
        true).2.rows.getLast?).map
      (fun row => (row.codeLength, row.maxAttempts, row.codeHash)) =
      some (last.codeLength, last.maxAttempts,
        hashFn (generateCode randFloor last.codeLength PinType.NUMERIC))) ∧
    ((∀ i, i < last.codeLength → randFloor i < 10) →
      ∀ c ∈ (generateCode randFloor last.codeLength
        PinType.NUMERIC).toList, c.isDigit = true) := by
  constructor
  · simp only [resendOTP, hrl, hlast]
    simp only [Bool.not_true, Bool.false_eq_true, if_false]
    show ((storeOTP (invalidatePendingOTPs st acct
        (normalizePhoneNumber reqPhone)) now _ _ _ _ _ _ _
        _).1.rows.getLast?).map _ = _
    unfold storeOTP
    rw [List.getLast?_concat]
    rfl
  · intro hrand c hc
    have halpha := (generateCode_length_alphabet randFloor last.codeLength
      PinType.NUMERIC (fun i hi => Nat.lt_of_lt_of_le (hrand i hi)
        (by decide))).2 c hc
    have hall : ∀ d ∈ (alphabetOf PinType.NUMERIC).toList,
        d.isDigit = true := by decide
    exact hall c halpha

/-- C5 witness: resending after a six-digit, three-attempt OTP keeps both
parameters and hashes a numeric code. -/
theorem resendOTP_shape_witness :
    (((resendOTP (fun _ => 0) id 40000
      ⟨[⟨0, "acc", "+233244123456", "AAAAAA", 6, OTPStatus.PENDING, 600000,
        3, 0, "s", "s", 0, none⟩], 1⟩
      "acc" "+233244123456" ⟨"s", "S"⟩ true).2.rows.getLast?).map
      (fun row => (row.codeLength, row.maxAttempts, row.codeHash)) =
      some (6, 3, generateCode (fun _ => 0) 6 PinType.NUMERIC)) :=
  (resendOTP_shape (fun _ => 0) id 40000
    ⟨[⟨0, "acc", "+233244123456", "AAAAAA", 6, OTPStatus.PENDING, 600000,
      3, 0, "s", "s", 0, none⟩], 1⟩
    "acc" "+233244123456" ⟨"s", "S"⟩
    ⟨0, "acc", "+233244123456", "AAAAAA", 6, OTPStatus.PENDING, 600000,
      3, 0, "s", "s", 0, none⟩
    (by decide) (by decide)).1

/-- C5 counterexample: an OTP requested with the ALPHABETIC pin type is
resent as the all-digit code 000000 (with the identity in place of the
hash and a constantly-zero random stream): the digit 0 is not in the
alphabetic alphabet, so resend does not preserve the original alphabet. -/
theorem resendOTP_counterexample :
    ((resendOTP (fun _ => 0) id 40000
      (requestOTP (fun _ => 0) id 0 ⟨[], 0⟩ "acc1" "+233244123456"
        none (some PinType.ALPHABETIC) none none ⟨"s", "S"⟩ true).2
      "acc1" "+233244123456" ⟨"s", "S"⟩ true).2.rows.getLast?).map
        OtpMessage.codeHash = some "000000" ∧
    '0' ∈ ("000000" : String).toList ∧
    ¬ ('0' ∈ (alphabetOf PinType.ALPHABETIC).toList) := by
  refine ⟨?_, by decide, by decide⟩
  decide
